import Mathlib

/-!
Verification of the x11q X11 protocol engine (repository rotkonetworks/x11q).

This file shallowly embeds the parts of the Rust source that the checked
claims are about:

* src/x11q-web/src/atom.rs    — AtomStore (intern, get_name, get_id)
* src/x11q-web/src/window.rs  — Window, WindowTree (create, destroy, map,
                                unmap, mapped_windows / collect_mapped)
* src/x11q-web/src/server.rs  — X11Server state, connection setup,
                                handle_request dispatcher and all request
                                handlers that produce replies or events

Conventions of the embedding:

* Bytes are Nat; wire data is List Nat.  Multi-byte reads/writes use the
  explicit little-endian helpers below, reducing modulo 2^8 / 2^16 / 2^32
  exactly where the Rust u8/u16/u32 types truncate.
* Signed 16-bit quantities (window x/y) are Int in [-32768, 32767]; wire
  decode and arithmetic wrap through wrap16, matching two's complement.
* Rust slice indexing (data[i], data[a..b]) panics when out of bounds.
  The embedding threads every such read through Option: a None result of
  a handler marks exactly the inputs on which the Rust code panics.
* Rust HashMap stores are association lists; HashMap::insert replaces the
  existing entry (insertW / ainsert), get/get_mut find the entry by key
  (lookupW / assoc / updateW), remove drops it (eraseW).  No handler ever
  iterates a HashMap, so list order is unobservable.
* The renderer (renderer.rs) only receives draw commands and never feeds
  back into replies, events or the resource stores; its calls are dropped
  from the embedding.  Logging is likewise dropped.
-/

namespace X11q

/-- Little-endian bytes of a 16-bit value (Rust u16::to_le_bytes). -/
def le16 (n : Nat) : List Nat := [n % 256, n / 256 % 256]

/-- Little-endian bytes of a 32-bit value (Rust u32::to_le_bytes). -/
def le32 (n : Nat) : List Nat :=
  [n % 256, n / 256 % 256, n / 65536 % 256, n / 16777216 % 256]

/-- A run of zero bytes (vec![0u8; n] / padding). -/
def zeros (n : Nat) : List Nat := List.replicate n 0

/-- Single byte read, data[i]; none = Rust index-out-of-bounds panic. -/
def byteAt (data : List Nat) (i : Nat) : Option Nat := data.get? i

/-- u16::from_le_bytes([data[i], data[i+1]]); none = panic. -/
def rd16 (data : List Nat) (i : Nat) : Option Nat := do
  let a ← byteAt data i
  let b ← byteAt data (i + 1)
  pure (a + 256 * b)

/-- u32::from_le_bytes of data[i..i+4]; none = panic. -/
def rd32 (data : List Nat) (i : Nat) : Option Nat := do
  let a ← byteAt data i
  let b ← byteAt data (i + 1)
  let c ← byteAt data (i + 2)
  let d ← byteAt data (i + 3)
  pure (a + 256 * b + 65536 * c + 16777216 * d)

/-- Rust slice &data[start..start+len]; none = out-of-bounds panic. -/
def sliceBytes (data : List Nat) (start len : Nat) : Option (List Nat) :=
  if start + len ≤ data.length then some ((data.drop start).take len) else none

/-- Rust slice &data[start..]; none = out-of-bounds panic. -/
def tailBytes (data : List Nat) (start : Nat) : Option (List Nat) :=
  if start ≤ data.length then some (data.drop start) else none

/-- Interpret a 16-bit wire value as i16 (two's complement). -/
def toI16 (n : Nat) : Int :=
  if n % 65536 < 32768 then (n % 65536 : Int) else (n % 65536 : Int) - 65536

/-- Wrapping i16 value of an Int (two's complement wraparound). -/
def wrap16 (n : Int) : Int := (n + 32768) % 65536 - 32768

/-- Little-endian u16 bytes of an i16 value (i16::to_le_bytes). -/
def le16i (n : Int) : List Nat := le16 ((n % 65536).toNat)

/-- Little-endian u32 bytes of an i32 value (i32::to_le_bytes). -/
def le32i (n : Int) : List Nat := le32 ((n % 4294967296).toNat)

/-- Association-list lookup, the HashMap::get of the embedding. -/
def assoc {α β : Type} [DecidableEq α] : List (α × β) → α → Option β
  | [], _ => none
  | (k, v) :: rest, a => if k = a then some v else assoc rest a

/-- Association-list insert-or-replace, the HashMap::insert of the embedding. -/
def ainsert {α β : Type} [DecidableEq α] : List (α × β) → α → β → List (α × β)
  | [], k, v => [(k, v)]
  | (k0, v0) :: rest, k, v =>
    if k0 = k then (k, v) :: rest else (k0, v0) :: ainsert rest k v

/-- UTF-8 validity of a byte string, as checked by Rust str::from_utf8. -/
def validUtf8 : List Nat → Bool
  | [] => true
  | b :: rest =>
    if b < 128 then validUtf8 rest
    else if 194 ≤ b ∧ b ≤ 223 then
      match rest with
      | c :: r => decide (128 ≤ c ∧ c ≤ 191) && validUtf8 r
      | [] => false
    else if 224 ≤ b ∧ b ≤ 239 then
      match rest with
      | c1 :: c2 :: r =>
        (if b = 224 then decide (160 ≤ c1 ∧ c1 ≤ 191)
         else if b = 237 then decide (128 ≤ c1 ∧ c1 ≤ 159)
         else decide (128 ≤ c1 ∧ c1 ≤ 191)) &&
        decide (128 ≤ c2 ∧ c2 ≤ 191) && validUtf8 r
      | _ => false
    else if 240 ≤ b ∧ b ≤ 244 then
      match rest with
      | c1 :: c2 :: c3 :: r =>
        (if b = 240 then decide (144 ≤ c1 ∧ c1 ≤ 191)
         else if b = 244 then decide (128 ≤ c1 ∧ c1 ≤ 143)
         else decide (128 ≤ c1 ∧ c1 ≤ 191)) &&
        decide (128 ≤ c2 ∧ c2 ≤ 191) && decide (128 ≤ c3 ∧ c3 ≤ 191) &&
        validUtf8 r
      | _ => false
    else false

/-! ## Atom store (src/x11q-web/src/atom.rs)

Atom names are byte strings (the bytes of the Rust UTF-8 String; for valid
UTF-8 the byte view is a faithful representation).  next_id is a u32, so
its increment reduces modulo 2^32. -/

/-- AtomStore: by_name and by_id HashMaps plus the next free id. -/
structure AtomStore where
  by_name : List (List Nat × Nat)
  by_id : List (Nat × List Nat)
  next_id : Nat
  deriving Repr

/-- The 68 predefined atoms of AtomStore::new (X11/Xatom.h), id then the
name bytes: PRIMARY=1 .. WM_TRANSIENT_FOR=68. -/
def predefinedAtoms : List (Nat × List Nat) := [
  (1, [80, 82, 73, 77, 65, 82, 89]),
  (2, [83, 69, 67, 79, 78, 68, 65, 82, 89]),
  (3, [65, 82, 67]),
  (4, [65, 84, 79, 77]),
  (5, [66, 73, 84, 77, 65, 80]),
  (6, [67, 65, 82, 68, 73, 78, 65, 76]),
  (7, [67, 79, 76, 79, 82, 77, 65, 80]),
  (8, [67, 85, 82, 83, 79, 82]),
  (9, [67, 85, 84, 95, 66, 85, 70, 70, 69, 82, 48]),
  (10, [67, 85, 84, 95, 66, 85, 70, 70, 69, 82, 49]),
  (11, [67, 85, 84, 95, 66, 85, 70, 70, 69, 82, 50]),
  (12, [67, 85, 84, 95, 66, 85, 70, 70, 69, 82, 51]),
  (13, [67, 85, 84, 95, 66, 85, 70, 70, 69, 82, 52]),
  (14, [67, 85, 84, 95, 66, 85, 70, 70, 69, 82, 53]),
  (15, [67, 85, 84, 95, 66, 85, 70, 70, 69, 82, 54]),
  (16, [67, 85, 84, 95, 66, 85, 70, 70, 69, 82, 55]),
  (17, [68, 82, 65, 87, 65, 66, 76, 69]),
  (18, [70, 79, 78, 84]),
  (19, [73, 78, 84, 69, 71, 69, 82]),
  (20, [80, 73, 88, 77, 65, 80]),
  (21, [80, 79, 73, 78, 84]),
  (22, [82, 69, 67, 84, 65, 78, 71, 76, 69]),
  (23, [82, 69, 83, 79, 85, 82, 67, 69, 95, 77, 65, 78, 65, 71, 69, 82]),
  (24, [82, 71, 66, 95, 67, 79, 76, 79, 82, 95, 77, 65, 80]),
  (25, [82, 71, 66, 95, 66, 69, 83, 84, 95, 77, 65, 80]),
  (26, [82, 71, 66, 95, 66, 76, 85, 69, 95, 77, 65, 80]),
  (27, [82, 71, 66, 95, 68, 69, 70, 65, 85, 76, 84, 95, 77, 65, 80]),
  (28, [82, 71, 66, 95, 71, 82, 65, 89, 95, 77, 65, 80]),
  (29, [82, 71, 66, 95, 71, 82, 69, 69, 78, 95, 77, 65, 80]),
  (30, [82, 71, 66, 95, 82, 69, 68, 95, 77, 65, 80]),
  (31, [83, 84, 82, 73, 78, 71]),
  (32, [86, 73, 83, 85, 65, 76, 73, 68]),
  (33, [87, 73, 78, 68, 79, 87]),
  (34, [87, 77, 95, 67, 79, 77, 77, 65, 78, 68]),
  (35, [87, 77, 95, 72, 73, 78, 84, 83]),
  (36, [87, 77, 95, 67, 76, 73, 69, 78, 84, 95, 77, 65, 67, 72, 73, 78, 69]),
  (37, [87, 77, 95, 73, 67, 79, 78, 95, 78, 65, 77, 69]),
  (38, [87, 77, 95, 73, 67, 79, 78, 95, 83, 73, 90, 69]),
  (39, [87, 77, 95, 78, 65, 77, 69]),
  (40, [87, 77, 95, 78, 79, 82, 77, 65, 76, 95, 72, 73, 78, 84, 83]),
  (41, [87, 77, 95, 83, 73, 90, 69, 95, 72, 73, 78, 84, 83]),
  (42, [87, 77, 95, 90, 79, 79, 77, 95, 72, 73, 78, 84, 83]),
  (43, [77, 73, 78, 95, 83, 80, 65, 67, 69]),
  (44, [78, 79, 82, 77, 95, 83, 80, 65, 67, 69]),
  (45, [77, 65, 88, 95, 83, 80, 65, 67, 69]),
  (46, [69, 78, 68, 95, 83, 80, 65, 67, 69]),
  (47, [83, 85, 80, 69, 82, 83, 67, 82, 73, 80, 84, 95, 88]),
  (48, [83, 85, 80, 69, 82, 83, 67, 82, 73, 80, 84, 95, 89]),
  (49, [83, 85, 66, 83, 67, 82, 73, 80, 84, 95, 88]),
  (50, [83, 85, 66, 83, 67, 82, 73, 80, 84, 95, 89]),
  (51, [85, 78, 68, 69, 82, 76, 73, 78, 69, 95, 80, 79, 83, 73, 84, 73, 79, 78]),
  (52, [85, 78, 68, 69, 82, 76, 73, 78, 69, 95, 84, 72, 73, 67, 75, 78, 69, 83, 83]),
  (53, [83, 84, 82, 73, 75, 69, 79, 85, 84, 95, 65, 83, 67, 69, 78, 84]),
  (54, [83, 84, 82, 73, 75, 69, 79, 85, 84, 95, 68, 69, 83, 67, 69, 78, 84]),
  (55, [73, 84, 65, 76, 73, 67, 95, 65, 78, 71, 76, 69]),
  (56, [88, 95, 72, 69, 73, 71, 72, 84]),
  (57, [81, 85, 65, 68, 95, 87, 73, 68, 84, 72]),
  (58, [87, 69, 73, 71, 72, 84]),
  (59, [80, 79, 73, 78, 84, 95, 83, 73, 90, 69]),
  (60, [82, 69, 83, 79, 76, 85, 84, 73, 79, 78]),
  (61, [67, 79, 80, 89, 82, 73, 71, 72, 84]),
  (62, [78, 79, 84, 73, 67, 69]),
  (63, [70, 79, 78, 84, 95, 78, 65, 77, 69]),
  (64, [70, 65, 77, 73, 76, 89, 95, 78, 65, 77, 69]),
  (65, [70, 85, 76, 76, 95, 78, 65, 77, 69]),
  (66, [67, 65, 80, 95, 72, 69, 73, 71, 72, 84]),
  (67, [87, 77, 95, 67, 76, 65, 83, 83]),
  (68, [87, 77, 95, 84, 82, 65, 78, 83, 73, 69, 78, 84, 95, 70, 79, 82])]

/-- AtomStore::new — the loop of inserts over 68 distinct ids/names builds
exactly these two maps, then sets next_id to 69. -/
def AtomStore.new : AtomStore :=
  { by_name := predefinedAtoms.map (fun p => (p.2, p.1))
    by_id := predefinedAtoms
    next_id := 69 }

/-- AtomStore::intern.  Returns the existing id, or none for a miss with
only_if_exists, or allocates next_id (u32 increment wraps mod 2^32). -/
def AtomStore.intern (a : AtomStore) (name : List Nat) (onlyIfExists : Bool) :
    Option Nat × AtomStore :=
  match assoc a.by_name name with
  | some id => (some id, a)
  | none =>
    if onlyIfExists then (none, a)
    else
      let id := a.next_id
      (some id,
       { by_name := ainsert a.by_name name id
         by_id := ainsert a.by_id id name
         next_id := (a.next_id + 1) % 4294967296 })

/-- AtomStore::get_name. -/
def AtomStore.get_name (a : AtomStore) (id : Nat) : Option (List Nat) :=
  assoc a.by_id id

/-- AtomStore::get_id. -/
def AtomStore.get_id (a : AtomStore) (name : List Nat) : Option Nat :=
  assoc a.by_name name

/-! ## Window tree (src/x11q-web/src/window.rs) -/

/-- WindowClass enum; discriminants 0,1,2 in declaration order. -/
inductive WindowClass where
  | CopyFromParent
  | InputOutput
  | InputOnly
  deriving Repr, DecidableEq

/-- The u16 value of a WindowClass (window.class as u16). -/
def WindowClass.toNat : WindowClass → Nat
  | .CopyFromParent => 0
  | .InputOutput => 1
  | .InputOnly => 2

/-- WindowAttributes with the Default::default() values as defaults. -/
structure WindowAttributes where
  background_pixel : Option Nat := none
  border_pixel : Option Nat := none
  bit_gravity : Nat := 0
  win_gravity : Nat := 0
  backing_store : Nat := 0
  backing_planes : Nat := 0
  backing_pixel : Nat := 0
  override_redirect : Bool := false
  save_under : Bool := false
  event_mask : Nat := 0
  do_not_propagate_mask : Nat := 0
  colormap : Nat := 0
  cursor : Nat := 0
  deriving Repr, DecidableEq

/-- Window record: ids/sizes are u32/u16 as Nat, x/y are i16 as Int.
The source field named class is wclass here (class is reserved). -/
structure Window where
  id : Nat
  parent : Nat
  x : Int
  y : Int
  width : Nat
  height : Nat
  border_width : Nat
  depth : Nat
  wclass : WindowClass
  visual : Nat
  mapped : Bool
  attributes : WindowAttributes
  children : List Nat
  deriving Repr, DecidableEq

/-- Window::new_root. -/
def Window.new_root (id width height depth visual : Nat) : Window :=
  { id, parent := 0, x := 0, y := 0, width, height, border_width := 0,
    depth, wclass := .InputOutput, visual, mapped := true,
    attributes := {}, children := [] }

/-- Window::new. -/
def Window.new (id parent : Nat) (x y : Int) (width height border_width depth : Nat)
    (wclass : WindowClass) (visual : Nat) : Window :=
  { id, parent, x, y, width, height, border_width, depth, wclass, visual,
    mapped := false, attributes := {}, children := [] }

/-- HashMap::get on the window store: first entry with the given id. -/
def lookupW : List Window → Nat → Option Window
  | [], _ => none
  | w :: ws, i => if w.id = i then some w else lookupW ws i

/-- HashMap::insert on the window store: replace the entry with the same
id in place, or add the window when absent. -/
def insertW : List Window → Window → List Window
  | [], w => [w]
  | x :: xs, w => if x.id = w.id then w :: xs else x :: insertW xs w

/-- HashMap::get_mut followed by a mutation: apply f to the entry with the
given id (no-op when absent). -/
def updateW : List Window → Nat → (Window → Window) → List Window
  | [], _, _ => []
  | w :: ws, i, f => if w.id = i then f w :: ws else w :: updateW ws i f

/-- HashMap::remove on the window store. -/
def eraseW : List Window → Nat → List Window
  | [], _ => []
  | w :: ws, i => if w.id = i then ws else w :: eraseW ws i

theorem lookupW_id {s : List Window} {i : Nat} {w : Window}
    (h : lookupW s i = some w) : w.id = i := by
  induction s with
  | nil => simp [lookupW] at h
  | cons a s ih =>
    by_cases ha : a.id = i <;> simp [lookupW, ha] at h
    · exact h ▸ ha
    · exact ih h

theorem lookupW_mem {s : List Window} {i : Nat} {w : Window}
    (h : lookupW s i = some w) : w ∈ s := by
  induction s with
  | nil => simp [lookupW] at h
  | cons a s ih =>
    by_cases ha : a.id = i <;> simp [lookupW, ha] at h
    · simp [h]
    · exact List.mem_cons_of_mem _ (ih h)

theorem lookupW_isSome_of_mem {s : List Window} {w : Window} (h : w ∈ s) :
    (lookupW s w.id).isSome := by
  induction s with
  | nil => simp at h
  | cons a s ih =>
    rcases List.mem_cons.mp h with rfl | h
    · simp [lookupW]
    · by_cases ha : a.id = w.id <;> simp [lookupW, ha, ih h]

theorem updateW_length (s : List Window) (i : Nat) (f : Window → Window) :
    (updateW s i f).length = s.length := by
  induction s with
  | nil => rfl
  | cons a s ih => by_cases ha : a.id = i <;> simp [updateW, ha, ih]

theorem eraseW_length {s : List Window} {i : Nat} {w : Window}
    (h : lookupW s i = some w) : (eraseW s i).length + 1 = s.length := by
  induction s with
  | nil => simp [lookupW] at h
  | cons a s ih =>
    by_cases ha : a.id = i <;> simp [lookupW, eraseW, ha] at h ⊢
    exact ih h

/-- WindowTree: the windows HashMap plus the root id. -/
structure WindowTree where
  windows : List Window
  root : Nat
  deriving Repr

/-- WindowTree::new. -/
def WindowTree.new (root_id width height : Nat) : WindowTree :=
  { windows := [Window.new_root root_id width height 24 33], root := root_id }

/-- WindowTree::root_id. -/
def WindowTree.root_id (t : WindowTree) : Nat := t.root

/-- WindowTree::get. -/
def WindowTree.get (t : WindowTree) (id : Nat) : Option Window :=
  lookupW t.windows id

/-- WindowTree::create_window: insert the window, then (if the parent
exists — get_mut) push its id onto the parent's child list. -/
def WindowTree.create_window (t : WindowTree) (w : Window) : WindowTree :=
  let ws := insertW t.windows w
  { t with windows := updateW ws w.parent (fun p => { p with children := p.children ++ [w.id] }) }

/-- The recursive body of WindowTree::destroy_window, phrased as an
explicit depth-first worklist: destroying id removes its entry, drops id
from its parent's child list (get_mut + retain), then destroys its
children in order before the remaining work.  Prepending the child list
to the stack is exactly the source's pre-order recursion; the worklist
form makes termination structural (the store shrinks at every removal). -/
def destroyAll (s : List Window) (stack : List Nat) : List Window :=
  match stack with
  | [] => s
  | i :: rest =>
    match h : lookupW s i with
    | none => destroyAll s rest
    | some w =>
      destroyAll
        (updateW (eraseW s i) w.parent
          (fun p => { p with children := p.children.filter (fun c => c ≠ i) }))
        (w.children ++ rest)
termination_by (s.length, stack.length)
decreasing_by
  · apply Prod.Lex.right
    simp
  · apply Prod.Lex.left
    rw [updateW_length]
    have h2 := eraseW_length h
    omega

/-- WindowTree::destroy_window (the returned Option<Window> is unused by
every caller and is dropped). -/
def WindowTree.destroy_window (t : WindowTree) (id : Nat) : WindowTree :=
  { t with windows := destroyAll t.windows [id] }

/-- WindowTree::map_window (the returned bool is unused by the server). -/
def WindowTree.map_window (t : WindowTree) (id : Nat) : WindowTree :=
  { t with windows := updateW t.windows id (fun w => { w with mapped := true }) }

/-- WindowTree::unmap_window (the returned bool is unused by the server). -/
def WindowTree.unmap_window (t : WindowTree) (id : Nat) : WindowTree :=
  { t with windows := updateW t.windows id (fun w => { w with mapped := false }) }

/-- One entry of mapped_windows: (id, abs_x, abs_y, width, height). -/
abbrev MappedWin : Type := Nat × Int × Int × Nat × Nat

/-- WindowTree::collect_mapped.  The source recursion has no bound (and
diverges on cyclic child lists); fuel bounds the recursion depth, and
every theorem about it supplies provably sufficient fuel. -/
def WindowTree.collect_mapped (t : WindowTree) :
    Nat → Nat → Int → Int → List MappedWin
  | 0, _, _, _ => []
  | fuel + 1, id, parent_x, parent_y =>
    match lookupW t.windows id with
    | none => []
    | some w =>
      if w.mapped then
        let abs_x := wrap16 (parent_x + w.x)
        let abs_y := wrap16 (parent_y + w.y)
        (if id ≠ t.root then [(id, abs_x, abs_y, w.width, w.height)] else []) ++
        (w.children.map (fun c => t.collect_mapped fuel c abs_x abs_y)).flatten
      else []

/-- WindowTree::mapped_windows, with the recursion-depth budget made
explicit. -/
def WindowTree.mapped_windows (t : WindowTree) (fuel : Nat) : List MappedWin :=
  t.collect_mapped fuel t.root 0 0

/-! ## Graphics contexts and pixmaps (src/x11q-web/src/gc.rs, drawable.rs) -/

/-- Association-list in-place mutation, the HashMap::get_mut pattern. -/
def aupdate {α β : Type} [DecidableEq α] : List (α × β) → α → (β → β) → List (α × β)
  | [], _, _ => []
  | (k0, v0) :: rest, k, f =>
    if k0 = k then (k0, f v0) :: rest else (k0, v0) :: aupdate rest k f

/-- Association-list removal, the HashMap::remove of the embedding. -/
def aerase {α β : Type} [DecidableEq α] : List (α × β) → α → List (α × β)
  | [], _ => []
  | (k0, v0) :: rest, k => if k0 = k then rest else (k0, v0) :: aerase rest k

/-- GC record; the function field holds the GCFunction discriminant
(Copy = 3).  Defaults are those of the gc.rs Default impl. -/
structure GC where
  id : Nat := 0
  drawable : Nat := 0
  function : Nat := 3
  plane_mask : Nat := 4294967295
  foreground : Nat := 0
  background : Nat := 1
  line_width : Nat := 0
  line_style : Nat := 0
  cap_style : Nat := 1
  join_style : Nat := 0
  fill_style : Nat := 0
  fill_rule : Nat := 0
  arc_mode : Nat := 1
  tile : Nat := 0
  stipple : Nat := 0
  tile_stipple_x : Int := 0
  tile_stipple_y : Int := 0
  font : Nat := 0
  subwindow_mode : Nat := 0
  graphics_exposures : Bool := true
  clip_x : Int := 0
  clip_y : Int := 0
  clip_mask : Nat := 0
  dash_offset : Nat := 0
  dashes : Nat := 4
  deriving Repr, DecidableEq

/-- GC::new — id and drawable set, everything else Default::default(). -/
def GC.new (id drawable : Nat) : GC := { id, drawable }

/-- Pixmap record (drawable.rs). -/
structure Pixmap where
  id : Nat
  drawable : Nat
  width : Nat
  height : Nat
  depth : Nat
  deriving Repr, DecidableEq

/-! ## The server (src/x11q-web/src/server.rs)

The Renderer only consumes draw commands (create_texture, fill_rect,
update_texture, destroy_texture); it never influences replies, events or
the resource stores, so the embedded state omits it.  Keyboard and
Pointer (input.rs) enter request handling only through keyboard.modifiers,
pointer.x, pointer.y and pointer.button_mask() inside QueryPointer-style
replies; those four values are carried as scalar fields. -/

/-- ConnectionState enum. -/
inductive ConnectionState where
  | AwaitingSetup
  | Connected
  deriving Repr, DecidableEq

/-- The errors the Rust code returns as Err(String); constructor names
stand for the message strings. -/
inductive RequestError where
  | setupTooShort
  | requestTooShort
  | incompleteRequest
  | invalidUtf8
  deriving Repr, DecidableEq

/-- X11Server state (renderer omitted, input devices as scalars). -/
structure X11Server where
  windows : WindowTree
  pixmaps : List (Nat × Pixmap)
  gcs : List (Nat × GC)
  atoms : AtomStore
  modifiers : Nat
  button_mask : Nat
  pointer_x : Int
  pointer_y : Int
  events : List (List Nat)
  next_id : Nat
  focus : Nat
  width : Nat
  height : Nat
  sequence : Nat
  state : ConnectionState
  resource_id_base : Nat
  resource_id_mask : Nat

/-- X11Server::new — root id 1, WindowTree::new receives width/height
truncated to u16. -/
def X11Server.new (width height : Nat) : X11Server :=
  { windows := WindowTree.new 1 (width % 65536) (height % 65536)
    pixmaps := []
    gcs := []
    atoms := AtomStore.new
    modifiers := 0
    button_mask := 0
    pointer_x := 0
    pointer_y := 0
    events := []
    next_id := 2097152
    focus := 1
    width := width
    height := height
    sequence := 0
    state := .AwaitingSetup
    resource_id_base := 2097152
    resource_id_mask := 2097151 }

/-- The extensions HashMap built in X11Server::new, as a fixed lookup:
RANDR, XInputExtension, XKEYBOARD, Generic Event Extension with their
(major_opcode, first_event, first_error) triples. -/
def extensionLookup (name : List Nat) : Option (Nat × Nat × Nat) :=
  if name = [82, 65, 78, 68, 82] then some (140, 89, 147)
  else if name = [88, 73, 110, 112, 117, 116, 69, 120, 116, 101, 110, 115,
                  105, 111, 110] then some (131, 147, 135)
  else if name = [88, 75, 69, 89, 66, 79, 65, 82, 68] then some (135, 85, 137)
  else if name = [71, 101, 110, 101, 114, 105, 99, 32, 69, 118, 101, 110,
                  116, 32, 69, 120, 116, 101, 110, 115, 105, 111, 110] then
    some (128, 0, 0)
  else none

/-- A handler outcome: none marks a Rust panic (out-of-bounds index);
otherwise the new state and Ok(reply-bytes) or Err. -/
abbrev HandlerResult : Type := Option (X11Server × Except RequestError (List Nat))

/-- X11Server::error_reply — 32 bytes, byte 0 = 0, byte 1 = code,
sequence at 2..4, bad value at 4..8. -/
def error_reply (st : X11Server) (error bad_value : Nat) : List Nat :=
  [0, error] ++ le16 st.sequence ++ le32 bad_value ++ zeros 24

/-- X11Server::send_map_notify — pushes a 32-byte MapNotify(19) event
whose bytes 2..4 are never written (they stay 0). -/
def send_map_notify (st : X11Server) (window : Nat) : X11Server :=
  { st with events :=
      st.events ++ [[19, 0, 0, 0] ++ le32 window ++ le32 window ++ zeros 20] }

/-- handle_create_window — reads the fixed layout at offsets 1..28 and
inserts the new window; no reply. -/
def handle_create_window (st : X11Server) (data : List Nat) : HandlerResult := do
  let depth ← byteAt data 1
  let wid ← rd32 data 4
  let parent ← rd32 data 8
  let x ← rd16 data 12
  let y ← rd16 data 14
  let width ← rd16 data 16
  let height ← rd16 data 18
  let border_width ← rd16 data 20
  let classv ← rd16 data 22
  let visual ← rd32 data 24
  let wclass : WindowClass :=
    if classv = 0 then .CopyFromParent
    else if classv = 1 then .InputOutput
    else if classv = 2 then .InputOnly
    else .CopyFromParent
  let window := Window.new wid parent (toI16 x) (toI16 y) width height
    border_width depth wclass visual
  pure ({ st with windows := st.windows.create_window window }, .ok [])

/-- handle_change_window_attributes — reads the window id, value parsing
is a TODO in the source; no reply. -/
def handle_change_window_attributes (st : X11Server) (data : List Nat) :
    HandlerResult := do
  let _wid ← rd32 data 4
  pure (st, .ok [])

/-- handle_get_window_attributes — 44-byte reply (length word 3) or a
BadWindow(3) error. -/
def handle_get_window_attributes (st : X11Server) (data : List Nat) :
    HandlerResult := do
  let wid ← rd32 data 4
  match st.windows.get wid with
  | some window =>
    pure (st, .ok ([1, 0] ++ le16 st.sequence ++ le32 3 ++
      le32 window.visual ++ le16 window.wclass.toNat ++
      [window.attributes.bit_gravity, window.attributes.win_gravity] ++
      le32 window.attributes.backing_planes ++
      le32 window.attributes.backing_pixel ++
      [if window.attributes.save_under then 1 else 0, 1,
       if window.mapped then 2 else 0,
       if window.attributes.override_redirect then 1 else 0] ++
      le32 window.attributes.colormap ++
      le32 window.attributes.event_mask ++ le32 0 ++
      le16 window.attributes.do_not_propagate_mask ++ zeros 2))
  | none => pure (st, .ok (error_reply st 3 wid))

/-- handle_destroy_window. -/
def handle_destroy_window (st : X11Server) (data : List Nat) : HandlerResult := do
  let wid ← rd32 data 4
  pure ({ st with windows := st.windows.destroy_window wid }, .ok [])

/-- handle_map_window — maps (no-op when unknown) and always enqueues one
MapNotify event; no reply. -/
def handle_map_window (st : X11Server) (data : List Nat) : HandlerResult := do
  let wid ← rd32 data 4
  let st := { st with windows := st.windows.map_window wid }
  pure (send_map_notify st wid, .ok [])

/-- handle_unmap_window — unmaps (no-op when unknown); no reply, no event. -/
def handle_unmap_window (st : X11Server) (data : List Nat) : HandlerResult := do
  let wid ← rd32 data 4
  pure ({ st with windows := st.windows.unmap_window wid }, .ok [])

/-- handle_configure_window — 16-bit value mask, one 4-byte word per set
bit in bit order x=1, y=2, width=4, height=8, border=0x10 (the border
read does not advance the offset, as in the source); no reply. -/
def handle_configure_window (st : X11Server) (data : List Nat) : HandlerResult := do
  let wid ← rd32 data 4
  let mask ← rd16 data 8
  match st.windows.get wid with
  | none => pure (st, .ok [])
  | some w0 => do
    let s1 ← if mask &&& 1 ≠ 0 then do
        let v ← rd16 data 12
        pure (({ w0 with x := toI16 v }, 16) : Window × Nat)
      else pure ((w0, 12) : Window × Nat)
    let s2 ← if mask &&& 2 ≠ 0 then do
        let v ← rd16 data s1.2
        pure (({ s1.1 with y := toI16 v }, s1.2 + 4) : Window × Nat)
      else pure s1
    let s3 ← if mask &&& 4 ≠ 0 then do
        let v ← rd16 data s2.2
        pure (({ s2.1 with width := v }, s2.2 + 4) : Window × Nat)
      else pure s2
    let s4 ← if mask &&& 8 ≠ 0 then do
        let v ← rd16 data s3.2
        pure (({ s3.1 with height := v }, s3.2 + 4) : Window × Nat)
      else pure s3
    let s5 ← if mask &&& 16 ≠ 0 then do
        let v ← rd16 data s4.2
        pure (({ s4.1 with border_width := v }, s4.2) : Window × Nat)
      else pure s4
    pure ({ st with windows :=
      { st.windows with windows := updateW st.windows.windows wid (fun _ => s5.1) } },
      .ok [])

/-- handle_get_geometry — 32-byte reply (length word 0) or BadDrawable(9). -/
def handle_get_geometry (st : X11Server) (data : List Nat) : HandlerResult := do
  let drawable ← rd32 data 4
  match st.windows.get drawable with
  | some w =>
    pure (st, .ok ([1, w.depth] ++ le16 st.sequence ++ le32 0 ++
      le32 st.windows.root_id ++ le16i w.x ++ le16i w.y ++
      le16 w.width ++ le16 w.height ++ le16 w.border_width ++ zeros 10))
  | none => pure (st, .ok (error_reply st 9 drawable))

/-- handle_query_tree — 32+4n bytes, length word n = child count, child
ids in list order; or BadWindow(3). -/
def handle_query_tree (st : X11Server) (data : List Nat) : HandlerResult := do
  let wid ← rd32 data 4
  match st.windows.get wid with
  | some w =>
    pure (st, .ok ([1, 0] ++ le16 st.sequence ++ le32 w.children.length ++
      le32 st.windows.root_id ++ le32 w.parent ++ le16 w.children.length ++
      zeros 14 ++ (w.children.map le32).flatten))
  | none => pure (st, .ok (error_reply st 3 wid))

/-- handle_intern_atom — name slice &data[8..8+name_len] (panic when out
of range), Err on invalid UTF-8, else a 32-byte reply whose bytes 8..12
hold the atom (or stay 0 for a only_if_exists miss). -/
def handle_intern_atom (st : X11Server) (data : List Nat) : HandlerResult := do
  let oie ← byteAt data 1
  let name_len ← rd16 data 4
  let name ← sliceBytes data 8 name_len
  if validUtf8 name then
    let r := st.atoms.intern name (oie ≠ 0)
    pure ({ st with atoms := r.2 }, .ok ([1, 0] ++ le16 st.sequence ++
      le32 0 ++ le32 (match r.1 with | some a => a | none => 0) ++ zeros 20))
  else
    pure (st, .error .invalidUtf8)

/-- handle_get_atom_name — 32+pad(name_len) bytes, length word
pad(name_len)/4, name_len at 8..10, the name bytes at 32..; or
BadAtom(5). -/
def handle_get_atom_name (st : X11Server) (data : List Nat) : HandlerResult := do
  let atom ← rd32 data 4
  match st.atoms.get_name atom with
  | some name =>
    let padded_len := (name.length + 3) / 4 * 4
    pure (st, .ok ([1, 0] ++ le16 st.sequence ++ le32 (padded_len / 4) ++
      le16 name.length ++ zeros 22 ++ name ++ zeros (padded_len - name.length)))
  | none => pure (st, .ok (error_reply st 5 atom))

/-- handle_change_property — stores nothing, reads nothing; no reply. -/
def handle_change_property (st : X11Server) (_data : List Nat) : HandlerResult :=
  pure (st, .ok [])

/-- handle_get_property — reads window and property ids, returns the
empty-value 32-byte reply. -/
def handle_get_property (st : X11Server) (data : List Nat) : HandlerResult := do
  let _wid ← rd32 data 4
  let _property ← rd32 data 8
  pure (st, .ok ([1, 0] ++ le16 st.sequence ++ zeros 28))

/-- handle_set_input_focus — records the focus window; no reply. -/
def handle_set_input_focus (st : X11Server) (data : List Nat) : HandlerResult := do
  let wid ← rd32 data 4
  pure ({ st with focus := wid }, .ok [])

/-- handle_get_input_focus — 32-byte reply with the focus at 8..12. -/
def handle_get_input_focus (st : X11Server) (_data : List Nat) : HandlerResult :=
  pure (st, .ok ([1, 0] ++ le16 st.sequence ++ le32 0 ++ le32 st.focus ++
    zeros 20))

/-- handle_query_pointer — 32-byte reply carrying pointer position, focus
as child and the modifier|button mask. -/
def handle_query_pointer (st : X11Server) (data : List Nat) : HandlerResult := do
  let _wid ← rd32 data 4
  pure (st, .ok ([1, 1] ++ le16 st.sequence ++ le32 0 ++
    le32 st.windows.root_id ++ le32 st.focus ++
    le16i st.pointer_x ++ le16i st.pointer_y ++
    le16i st.pointer_x ++ le16i st.pointer_y ++
    le16 (st.modifiers ||| st.button_mask) ++ zeros 6))

/-- handle_create_pixmap. -/
def handle_create_pixmap (st : X11Server) (data : List Nat) : HandlerResult := do
  let depth ← byteAt data 1
  let pid ← rd32 data 4
  let drawable ← rd32 data 8
  let width ← rd16 data 12
  let height ← rd16 data 14
  let pm : Pixmap := { id := pid, drawable, width, height, depth }
  pure ({ st with pixmaps := ainsert st.pixmaps pid pm }, .ok [])

/-- handle_free_pixmap. -/
def handle_free_pixmap (st : X11Server) (data : List Nat) : HandlerResult := do
  let pid ← rd32 data 4
  pure ({ st with pixmaps := aerase st.pixmaps pid }, .ok [])

/-- handle_create_gc. -/
def handle_create_gc (st : X11Server) (data : List Nat) : HandlerResult := do
  let gcid ← rd32 data 4
  let drawable ← rd32 data 8
  pure ({ st with gcs := ainsert st.gcs gcid (GC.new gcid drawable) }, .ok [])

/-- handle_change_gc — 32-bit mask; only foreground (0x04) and
background (0x08) are applied. -/
def handle_change_gc (st : X11Server) (data : List Nat) : HandlerResult := do
  let gcid ← rd32 data 4
  let mask ← rd32 data 8
  match assoc st.gcs gcid with
  | none => pure (st, .ok [])
  | some gc => do
    let s1 ← if mask &&& 4 ≠ 0 then do
        let v ← rd32 data 12
        pure (({ gc with foreground := v }, 16) : GC × Nat)
      else pure ((gc, 12) : GC × Nat)
    let s2 ← if mask &&& 8 ≠ 0 then do
        let v ← rd32 data s1.2
        pure (({ s1.1 with background := v }, s1.2) : GC × Nat)
      else pure s1
    pure ({ st with gcs := aupdate st.gcs gcid (fun _ => s2.1) }, .ok [])

/-- handle_free_gc. -/
def handle_free_gc (st : X11Server) (data : List Nat) : HandlerResult := do
  let gcid ← rd32 data 4
  pure ({ st with gcs := aerase st.gcs gcid }, .ok [])

/-- handle_clear_area — reads the fixed fields; the fill itself only
drives the renderer (note: width==0 with x > window.width underflows a
u32 subtraction in the source before reaching the renderer); no reply. -/
def handle_clear_area (st : X11Server) (data : List Nat) : HandlerResult := do
  let _wid ← rd32 data 4
  let _x ← rd16 data 8
  let _y ← rd16 data 10
  let _width ← rd16 data 12
  let _height ← rd16 data 14
  pure (st, .ok [])

/-- handle_poly_fill_rectangle — the rectangle loop is bounds-guarded and
drives only the renderer; no reply. -/
def handle_poly_fill_rectangle (st : X11Server) (data : List Nat) :
    HandlerResult := do
  let _drawable ← rd32 data 4
  let _gcid ← rd32 data 8
  pure (st, .ok [])

/-- handle_put_image — reads the fixed fields and the &data[24..] slice
(panic for frames shorter than 24); the pixel conversion is bounds-guarded
and drives only the renderer; no reply. -/
def handle_put_image (st : X11Server) (data : List Nat) : HandlerResult := do
  let _format ← byteAt data 1
  let _drawable ← rd32 data 4
  let _gcid ← rd32 data 8
  let _width ← rd16 data 12
  let _height ← rd16 data 14
  let _dst_x ← rd16 data 16
  let _dst_y ← rd16 data 18
  let _left_pad ← byteAt data 20
  let _depth ← byteAt data 21
  let _image ← tailBytes data 24
  pure (st, .ok [])

/-- handle_get_image — fixed 32-byte stub reply (depth 24, visual 0x21). -/
def handle_get_image (st : X11Server) (_data : List Nat) : HandlerResult :=
  pure (st, .ok ([1, 24] ++ le16 st.sequence ++ le32 0 ++ le32 33 ++ zeros 20))

/-- handle_alloc_color — white stub. -/
def handle_alloc_color (st : X11Server) (_data : List Nat) : HandlerResult :=
  pure (st, .ok ([1, 0] ++ le16 st.sequence ++ le32 0 ++ le16 65535 ++
    le16 65535 ++ le16 65535 ++ zeros 2 ++ le32 16777215 ++ zeros 12))

/-- handle_query_colors — one white 8-byte record per requested pixel. -/
def handle_query_colors (st : X11Server) (data : List Nat) : HandlerResult :=
  let num_pixels := if 8 ≤ data.length then (data.length - 8) / 4 else 0
  pure (st, .ok ([1, 0] ++ le16 st.sequence ++ le32 (num_pixels * 2) ++
    le16 num_pixels ++ zeros 22 ++
    (List.replicate num_pixels
      (le16 65535 ++ le16 65535 ++ le16 65535 ++ zeros 2)).flatten))

/-- handle_query_best_size — 16x16 stub. -/
def handle_query_best_size (st : X11Server) (_data : List Nat) : HandlerResult :=
  pure (st, .ok ([1, 0] ++ le16 st.sequence ++ le32 0 ++ le16 16 ++ le16 16 ++
    zeros 20))

/-- handle_query_extension — name slice &data[8..8+name_len] (panic when
out of range), invalid UTF-8 falls back to the empty name
(unwrap_or("")); present extensions get their triple at bytes 9..12. -/
def handle_query_extension (st : X11Server) (data : List Nat) : HandlerResult := do
  let name_len ← rd16 data 4
  let raw ← sliceBytes data 8 name_len
  let name := if validUtf8 raw then raw else []
  pure (st, .ok ([1, 0] ++ le16 st.sequence ++ le32 0 ++
    (match extensionLookup name with
     | some t => [1, t.1, t.2.1, t.2.2]
     | none => [0, 0, 0, 0]) ++ zeros 20))

/-- handle_query_keymap — 32-byte zero-keys reply. -/
def handle_query_keymap (st : X11Server) (_data : List Nat) : HandlerResult :=
  pure (st, .ok ([1, 0] ++ le16 st.sequence ++ zeros 28))

/-- handle_get_keyboard_mapping — 2 keysyms per keycode for 248 keycodes;
keycodes 0x20..0x7f map to themselves, first keysym slot only. -/
def handle_get_keyboard_mapping (st : X11Server) (_data : List Nat) :
    HandlerResult :=
  pure (st, .ok ([1, 2] ++ le16 st.sequence ++ le32 496 ++ zeros 24 ++
    ((List.range 248).map (fun i =>
      (if 32 ≤ i + 8 ∧ i + 8 < 128 then le32 (i + 8) else le32 0) ++
      le32 0)).flatten))

/-- handle_get_modifier_mapping — 2 keycodes per modifier, the fixed
Shift/Lock/Control/Mod1/Mod2/Mod4 table. -/
def handle_get_modifier_mapping (st : X11Server) (_data : List Nat) :
    HandlerResult :=
  pure (st, .ok ([1, 2] ++ le16 st.sequence ++ le32 4 ++ zeros 24 ++
    [50, 62, 66, 0, 37, 105, 64, 108, 77, 0, 0, 0, 133, 134, 0, 0]))

/-- handle_get_selection_owner — owner None. -/
def handle_get_selection_owner (st : X11Server) (_data : List Nat) :
    HandlerResult :=
  pure (st, .ok ([1, 0] ++ le16 st.sequence ++ zeros 28))

/-- handle_query_font — 60-byte zero font stub, length word 7. -/
def handle_query_font (st : X11Server) (_data : List Nat) : HandlerResult :=
  pure (st, .ok ([1, 0] ++ le16 st.sequence ++ le32 7 ++ zeros 52))

/-- handle_list_fonts_with_info — terminal no-more-fonts reply. -/
def handle_list_fonts_with_info (st : X11Server) (_data : List Nat) :
    HandlerResult :=
  pure (st, .ok ([1, 0] ++ le16 st.sequence ++ le32 7 ++ zeros 52))

/-- handle_ge — Generic Event extension: QueryVersion(0) answers 1.0,
every other minor absorbs the frame. -/
def handle_ge (st : X11Server) (data : List Nat) : HandlerResult := do
  let minor ← byteAt data 1
  match minor with
  | 0 => pure (st, .ok ([1, 0] ++ le16 st.sequence ++ le32 0 ++ le16 1 ++
      le16 0 ++ zeros 20))
  | _ => pure (st, .ok [])

/-- xinput_query_version — 2.3. -/
def xinput_query_version (st : X11Server) : List Nat :=
  [1, 0] ++ le16 st.sequence ++ le32 0 ++ le16 2 ++ le16 3 ++ zeros 20

/-- xinput_query_device — master pointer (id 2) and master keyboard
(id 3), 28 bytes each, name strings included. -/
def xinput_query_device (st : X11Server) : List Nat :=
  let devices :=
    le16 2 ++ le16 1 ++ le16 3 ++ le16 0 ++ le16 14 ++ [1, 0] ++
    [77, 97, 115, 116, 101, 114, 32, 112, 111, 105, 110, 116, 101, 114] ++
    zeros 2 ++
    le16 3 ++ le16 2 ++ le16 2 ++ le16 0 ++ le16 15 ++ [1, 0] ++
    [77, 97, 115, 116, 101, 114, 32, 107, 101, 121, 98, 111, 97, 114, 100] ++
    zeros 1
  [1, 0] ++ le16 st.sequence ++ le32 (devices.length / 4) ++ le16 2 ++
  zeros 22 ++ devices

/-- xinput_query_pointer — 56-byte reply whose length word is 4 (the
source slip: 4*4+32 = 48 ≠ 56); coordinates as Fixed 16.16. -/
def xinput_query_pointer (st : X11Server) : List Nat :=
  let pos := le32i (st.pointer_x * 65536)
  [1, 0] ++ le16 st.sequence ++ le32 4 ++ le32 st.windows.root_id ++
  le32 0 ++ pos ++ pos ++ pos ++ pos ++ [1] ++ zeros 23

/-- xinput_get_focus — root window. -/
def xinput_get_focus (st : X11Server) : List Nat :=
  [1, 0] ++ le16 st.sequence ++ le32 0 ++ le32 st.windows.root_id ++ zeros 20

/-- xinput_get_selected_events — zero masks. -/
def xinput_get_selected_events (st : X11Server) : List Nat :=
  [1, 0] ++ le16 st.sequence ++ zeros 28

/-- handle_xinput — dispatch on the minor opcode. -/
def handle_xinput (st : X11Server) (data : List Nat) : HandlerResult := do
  let minor ← byteAt data 1
  match minor with
  | 1 => pure (st, .ok (xinput_query_version st))
  | 46 => pure (st, .ok (xinput_query_device st))
  | 47 => pure (st, .ok (xinput_query_pointer st))
  | 48 => pure (st, .ok (xinput_get_focus st))
  | 52 => pure (st, .ok [])
  | 61 => pure (st, .ok (xinput_get_selected_events st))
  | _ => pure (st, .ok [])

/-- xkb_use_extension — supported, 1.0. -/
def xkb_use_extension (st : X11Server) : List Nat :=
  [1, 1] ++ le16 st.sequence ++ le32 0 ++ le16 1 ++ le16 0 ++ zeros 20

/-- xkb_get_map — 40 bytes, length word 2, min/max keycode 8/255. -/
def xkb_get_map (st : X11Server) : List Nat :=
  [1, 3] ++ le16 st.sequence ++ le32 2 ++ [0, 0, 8, 255] ++ zeros 28

/-- xkb_get_names — 32 bytes, min/max keycode at 12/13. -/
def xkb_get_names (st : X11Server) : List Nat :=
  [1, 3] ++ le16 st.sequence ++ le32 0 ++ [0, 0, 0, 0, 8, 255] ++ zeros 18

/-- xkb_get_controls — 92 bytes, length word 15, numGroups 1,
repeatDelay 500, repeatInterval 30, perKeyRepeat all ones. -/
def xkb_get_controls (st : X11Server) : List Nat :=
  [1, 3] ++ le16 st.sequence ++ le32 15 ++ [0, 1] ++ zeros 12 ++
  le16 500 ++ le16 30 ++ zeros 34 ++ List.replicate 32 255

/-- xkb_get_compat_map — 32-byte zero stub. -/
def xkb_get_compat_map (st : X11Server) : List Nat :=
  [1, 3] ++ le16 st.sequence ++ zeros 28

/-- xkb_get_indicator_map — 32-byte zero stub. -/
def xkb_get_indicator_map (st : X11Server) : List Nat :=
  [1, 3] ++ le16 st.sequence ++ zeros 28

/-- handle_xkb — dispatch on the minor opcode. -/
def handle_xkb (st : X11Server) (data : List Nat) : HandlerResult := do
  let minor ← byteAt data 1
  match minor with
  | 0 => pure (st, .ok (xkb_use_extension st))
  | 1 => pure (st, .ok [])
  | 6 => pure (st, .ok (xkb_get_controls st))
  | 8 => pure (st, .ok (xkb_get_map st))
  | 9 => pure (st, .ok [])
  | 10 => pure (st, .ok (xkb_get_compat_map st))
  | 13 => pure (st, .ok (xkb_get_indicator_map st))
  | 17 => pure (st, .ok (xkb_get_names st))
  | 24 => pure (st, .ok (xkb_get_names st))
  | _ => pure (st, .ok [])

/-- randr_query_version — 1.6 at bytes 8..16, length word left 0. -/
def randr_query_version (st : X11Server) : List Nat :=
  [1, 0] ++ le16 st.sequence ++ le32 0 ++ le32 1 ++ le32 6 ++ zeros 16

/-- The b"default\0" name block shared by the RANDR replies. -/
def defaultNameBytes : List Nat := [100, 101, 102, 97, 117, 108, 116, 0]

/-- randr_get_screen_resources — 80 bytes actually emitted while the
length word is (8+4+4+32+8)/4 = 14 (the source slip: 14*4+32 = 88 ≠ 80). -/
def randr_get_screen_resources (st : X11Server) : List Nat :=
  let length := (8 + 1 * 4 + 1 * 4 + 1 * 32 + 8) / 4
  [1, 0] ++ le16 st.sequence ++ le32 length ++ zeros 8 ++
  le16 1 ++ le16 1 ++ le16 1 ++ le16 8 ++ zeros 8 ++
  le32 1 ++ le32 1 ++
  (le32 1 ++ le16 st.width ++ le16 st.height ++ le32 60000000 ++
   le16 st.width ++ le16 st.width ++ le16 st.width ++ le16 0 ++
   le16 st.height ++ le16 st.height ++ le16 st.height ++ le16 7 ++ le32 0) ++
  defaultNameBytes

/-- randr_get_output_info — 52 bytes emitted, length word
(12+4+4+pad(7))/4 = 7 (the source slip: 7*4+32 = 60 ≠ 52). -/
def randr_get_output_info (st : X11Server) : List Nat :=
  let length := (12 + 1 * 4 + 1 * 4 + (7 + 3) / 4 * 4) / 4
  [1, 0] ++ le16 st.sequence ++ le32 length ++ le32 0 ++ le32 1 ++
  le32 (st.width / 4) ++ le32 (st.height / 4) ++ [1, 0] ++
  le16 1 ++ le16 1 ++ le16 1 ++ zeros 2 ++ le16 7 ++
  le32 1 ++ le32 1 ++ defaultNameBytes

/-- randr_get_crtc_info — 40 bytes emitted, length word (8+4+4)/4 = 4
(the source slip: 4*4+32 = 48 ≠ 40). -/
def randr_get_crtc_info (st : X11Server) : List Nat :=
  let length := (8 + 1 * 4 + 1 * 4) / 4
  [1, 0] ++ le16 st.sequence ++ le32 length ++ le32 0 ++
  le16 0 ++ le16 0 ++ le16 st.width ++ le16 st.height ++ le32 1 ++
  le16 1 ++ le16 1 ++ le16 1 ++ le16 1 ++ le32 1 ++ le32 1

/-- randr_get_output_primary — output 1. -/
def randr_get_output_primary (st : X11Server) : List Nat :=
  [1, 0] ++ le16 st.sequence ++ le32 0 ++ le32 1 ++ zeros 20

/-- randr_get_providers — zero providers (all payload bytes zero). -/
def randr_get_providers (st : X11Server) : List Nat :=
  [1, 0] ++ le16 st.sequence ++ zeros 28

/-- handle_randr — dispatch on the minor opcode. -/
def handle_randr (st : X11Server) (data : List Nat) : HandlerResult := do
  let minor ← byteAt data 1
  match minor with
  | 0 => pure (st, .ok (randr_query_version st))
  | 4 => pure (st, .ok [])
  | 5 => pure (st, .ok (randr_get_screen_resources st))
  | 6 => pure (st, .ok (randr_get_output_info st))
  | 9 => pure (st, .ok (randr_get_crtc_info st))
  | 25 => pure (st, .ok (randr_get_output_primary st))
  | 31 => pure (st, .ok (randr_get_providers st))
  | _ => pure (st, .ok [])

/-- build_connection_reply — the 8+120 byte success reply: header, fixed
fields, vendor "x11q-web", one pixmap format, one screen, one depth, one
TrueColor visual. -/
def build_connection_reply (st : X11Server) : List Nat :=
  let vendor : List Nat := [120, 49, 49, 113, 45, 119, 101, 98]
  let vendor_pad := (4 - vendor.length % 4) % 4
  let additional_data_len :=
    32 + (vendor.length + vendor_pad) + 8 + 40 + (8 + 24)
  let additional_words := additional_data_len / 4
  [1, 0] ++ le16 11 ++ le16 0 ++ le16 additional_words ++
  le32 0 ++ le32 st.resource_id_base ++ le32 st.resource_id_mask ++
  le32 0 ++ le16 vendor.length ++ le16 65535 ++
  [1, 1, 0, 0, 8, 32, 8, 255] ++ zeros 4 ++
  vendor ++ zeros vendor_pad ++
  [24, 32, 32] ++ zeros 5 ++
  le32 st.windows.root_id ++ le32 32 ++ le32 4294967295 ++ le32 0 ++
  le32 0 ++ le16 st.width ++ le16 st.height ++ le16 (st.width / 4) ++
  le16 (st.height / 4) ++ le16 1 ++ le16 1 ++ le32 33 ++ [0, 1, 24, 1] ++
  [24, 0] ++ le16 1 ++ zeros 4 ++
  le32 33 ++ [4, 8] ++ le16 256 ++ le32 16711680 ++ le32 65280 ++
  le32 255 ++ zeros 4

/-- handle_connection_setup — frames shorter than 12 bytes are an Err;
otherwise the byte-order byte is read but never validated, the success
reply is built and the connection becomes Connected. -/
def handle_connection_setup (st : X11Server) (data : List Nat) :
    HandlerResult :=
  if data.length < 12 then pure (st, .error .setupTooShort)
  else do
    let _byte_order ← byteAt data 0
    let _protocol_major ← rd16 data 2
    let _protocol_minor ← rd16 data 4
    let _auth_name_len ← rd16 data 6
    let _auth_data_len ← rd16 data 8
    pure ({ st with state := .Connected }, .ok (build_connection_reply st))

/-- handle_request — frame-length checks, then the single sequence
increment (u16 wraparound), then dispatch on the opcode byte; unknown
opcodes are absorbed with an empty reply. -/
def handle_request (st : X11Server) (data : List Nat) : HandlerResult :=
  if data.length < 4 then pure (st, .error .requestTooShort)
  else do
    let opcode ← byteAt data 0
    let _detail ← byteAt data 1
    let lengthField ← rd16 data 2
    if lengthField * 4 > 0 ∧ data.length < lengthField * 4 then
      pure (st, .error .incompleteRequest)
    else
      let st := { st with sequence := (st.sequence + 1) % 65536 }
      match opcode with
      | 1 => handle_create_window st data
      | 2 => handle_change_window_attributes st data
      | 3 => handle_get_window_attributes st data
      | 4 => handle_destroy_window st data
      | 8 => handle_map_window st data
      | 10 => handle_unmap_window st data
      | 12 => handle_configure_window st data
      | 14 => handle_get_geometry st data
      | 15 => handle_query_tree st data
      | 16 => handle_intern_atom st data
      | 17 => handle_get_atom_name st data
      | 18 => handle_change_property st data
      | 20 => handle_get_property st data
      | 23 => handle_get_selection_owner st data
      | 38 => handle_query_pointer st data
      | 42 => handle_set_input_focus st data
      | 43 => handle_get_input_focus st data
      | 45 => pure (st, .ok [])
      | 46 => pure (st, .ok [])
      | 47 => handle_query_font st data
      | 49 => handle_list_fonts_with_info st data
      | 53 => handle_create_pixmap st data
      | 54 => handle_free_pixmap st data
      | 55 => handle_create_gc st data
      | 56 => handle_change_gc st data
      | 60 => handle_free_gc st data
      | 61 => handle_clear_area st data
      | 62 => pure (st, .ok [])
      | 70 => handle_poly_fill_rectangle st data
      | 72 => handle_put_image st data
      | 73 => handle_get_image st data
      | 78 => pure (st, .ok [])
      | 84 => handle_alloc_color st data
      | 91 => handle_query_colors st data
      | 97 => handle_query_best_size st data
      | 98 => handle_query_extension st data
      | 99 => handle_query_keymap st data
      | 101 => handle_get_keyboard_mapping st data
      | 119 => handle_get_modifier_mapping st data
      | 128 => handle_ge st data
      | 131 => handle_xinput st data
      | 135 => handle_xkb st data
      | 140 => handle_randr st data
      | _ => pure (st, .ok [])

/-- process_request — setup frame first, then ordinary requests. -/
def process_request (st : X11Server) (data : List Nat) : HandlerResult :=
  match st.state with
  | .AwaitingSetup => handle_connection_setup st data
  | .Connected => handle_request st data

/-! ## Basic lemmas about the byte helpers and association lists -/

theorem le16_length (n : Nat) : (le16 n).length = 2 := rfl

theorem le32_length (n : Nat) : (le32 n).length = 4 := rfl

theorem zeros_length (n : Nat) : (zeros n).length = n := List.length_replicate n 0

theorem rd32_recompose (n : Nat) :
    n % 256 + 256 * (n / 256 % 256) + 65536 * (n / 65536 % 256) +
      16777216 * (n / 16777216 % 256) = n % 4294967296 := by
  omega

theorem rd16_recompose (n : Nat) :
    n % 256 + 256 * (n / 256 % 256) = n % 65536 := by
  omega

/-- Reading back a 32-bit value written after a 4-byte header. -/
theorem rd32_after4 (b0 b1 b2 b3 n : Nat) (rest : List Nat) :
    rd32 ([b0, b1, b2, b3] ++ le32 n ++ rest) 4 = some (n % 4294967296) := by
  simp [rd32, byteAt, le32, rd32_recompose n]

theorem assoc_mem {α β : Type} [DecidableEq α] {l : List (α × β)} {k : α} {v : β}
    (h : assoc l k = some v) : (k, v) ∈ l := by
  induction l with
  | nil => simp [assoc] at h
  | cons p rest ih =>
    obtain ⟨a, b⟩ := p
    by_cases hk : a = k
    · subst hk
      simp [assoc] at h
      subst h
      exact List.Mem.head _
    · simp [assoc, hk] at h
      exact List.Mem.tail _ (ih h)

theorem assoc_ainsert_self {α β : Type} [DecidableEq α] (l : List (α × β))
    (k : α) (v : β) : assoc (ainsert l k v) k = some v := by
  induction l with
  | nil => simp [ainsert, assoc]
  | cons p rest ih =>
    obtain ⟨a, b⟩ := p
    by_cases hk : a = k
    · simp [ainsert, hk, assoc]
    · simp [ainsert, hk, assoc, ih]

theorem assoc_ainsert_of_ne {α β : Type} [DecidableEq α] (l : List (α × β))
    {k k2 : α} (v : β) (h : k ≠ k2) :
    assoc (ainsert l k v) k2 = assoc l k2 := by
  induction l with
  | nil => simp [ainsert, assoc, h]
  | cons p rest ih =>
    obtain ⟨a, b⟩ := p
    by_cases hk : a = k
    · subst hk
      simp [ainsert, assoc, h]
    · by_cases hk2 : a = k2 <;> simp [ainsert, assoc, hk, hk2, ih, Ne.symm h]

/-! ## Claims C3 and C4 — the atom store -/

/-- The store invariant for the atom round-trip law: every interned id is
non-zero, fits in u32, and is mapped back to its name by by_id; the next
free id is likewise non-zero and in u32 range. -/
def AtomInv (a : AtomStore) : Prop :=
  (∀ p ∈ a.by_name, p.2 ≠ 0 ∧ p.2 < 4294967296 ∧ assoc a.by_id p.2 = some p.1) ∧
  a.next_id ≠ 0 ∧ a.next_id < 4294967296

instance (a : AtomStore) : Decidable (AtomInv a) := by
  unfold AtomInv
  infer_instance

/-- The name bytes of "HELLO", used by the concrete witnesses. -/
def helloBytes : List Nat := [72, 69, 76, 76, 79]


theorem reply_tail_at32 (b0 b1 s L n : Nat) (tail : List Nat) :
    ([b0, b1] ++ le16 s ++ le32 L ++ le16 n ++ zeros 22 ++ tail).drop 32 = tail := by
  have h : ([b0, b1] ++ le16 s ++ le32 L ++ le16 n ++ zeros 22 ++ tail)
      = ([b0, b1] ++ le16 s ++ le32 L ++ le16 n ++ zeros 22) ++ tail := by
    simp [List.append_assoc]
  rw [h]
  have h32 : ([b0, b1] ++ le16 s ++ le32 L ++ le16 n ++ zeros 22 : List Nat).length = 32 := by
    simp [le16, le32, zeros]
  rw [← h32, List.drop_left]

theorem get_atom_name_reply (st : X11Server) (id : Nat) (name : List Nat)
    (hid : id < 4294967296) (hname : st.atoms.get_name id = some name) :
    handle_get_atom_name st ([17, 0, 2, 0] ++ le32 id) =
      some (st, .ok ([1, 0] ++ le16 st.sequence ++
        le32 ((name.length + 3) / 4 * 4 / 4) ++ le16 name.length ++ zeros 22 ++
        (name ++ zeros ((name.length + 3) / 4 * 4 - name.length)))) := by
  have h4 : rd32 ([17, 0, 2, 0] ++ le32 id) 4 = some id := by
    have := rd32_after4 17 0 2 0 id []
    simpa [Nat.mod_eq_of_lt hid] using this
  simp only [handle_get_atom_name, bind, Option.bind_eq_bind, h4, Option.some_bind]
  rw [hname]
  rfl

/-- Claim C3: interning a name with only_if_exists = false yields a
non-zero atom id; re-interning the same name with either flag returns the
same id and leaves the store unchanged; get_name, and the GetAtomName
reply built from it, return a byte-exact copy of the name. -/
theorem intern_get_atom_name_roundtrip (a : AtomStore) (name : List Nat)
    (hinv : AtomInv a) :
    ∃ id a2,
      a.intern name false = (some id, a2) ∧
      id ≠ 0 ∧
      (∀ oie, a2.intern name oie = (some id, a2)) ∧
      a2.get_name id = some name ∧
      (∀ st : X11Server, st.atoms = a2 →
        ∃ reply, handle_get_atom_name st ([17, 0, 2, 0] ++ le32 id) =
            some (st, .ok reply) ∧
          reply.get? 0 = some 1 ∧ (reply.drop 32).take name.length = name) := by
  obtain ⟨hmap, hnz, hlt⟩ := hinv
  cases hfound : assoc a.by_name name with
  | some id =>
    obtain ⟨hid0, hidlt, hbyid⟩ := hmap _ (assoc_mem hfound)
    refine ⟨id, a, by simp [AtomStore.intern, hfound], hid0,
      fun oie => by simp [AtomStore.intern, hfound], hbyid, ?_⟩
    intro st hst
    refine ⟨_, get_atom_name_reply st id name hidlt (by rw [hst]; exact hbyid), rfl, ?_⟩
    rw [reply_tail_at32, List.take_left]
  | none =>
    refine ⟨a.next_id,
      { by_name := ainsert a.by_name name a.next_id
        by_id := ainsert a.by_id a.next_id name
        next_id := (a.next_id + 1) % 4294967296 },
      by simp [AtomStore.intern, hfound], hnz, ?_, ?_, ?_⟩
    · intro oie
      simp [AtomStore.intern, hfound, assoc_ainsert_self]
    · simp [AtomStore.intern, hfound, AtomStore.get_name, assoc_ainsert_self]
    · intro st hst
      refine ⟨_, get_atom_name_reply st a.next_id name hlt
        (by rw [hst]; simp [AtomStore.intern, hfound, AtomStore.get_name, assoc_ainsert_self]), rfl, ?_⟩
      rw [reply_tail_at32, List.take_left]

theorem intern_get_atom_name_roundtrip_witness :
    AtomInv AtomStore.new ∧
    ∃ id a2,
      AtomStore.new.intern helloBytes false = (some id, a2) ∧
      id ≠ 0 ∧
      (∀ oie, a2.intern helloBytes oie = (some id, a2)) ∧
      a2.get_name id = some helloBytes ∧
      (∀ st : X11Server, st.atoms = a2 →
        ∃ reply, handle_get_atom_name st ([17, 0, 2, 0] ++ le32 id) =
            some (st, .ok reply) ∧
          reply.get? 0 = some 1 ∧ (reply.drop 32).take helloBytes.length = helloBytes) :=
  ⟨by decide, intern_get_atom_name_roundtrip AtomStore.new helloBytes (by decide)⟩


/-- The InternAtom wire frame for a name: 8-byte header with name_len at
bytes 4..6, then the name padded to a 4-byte boundary. -/
def internAtomFrame (oie : Nat) (name : List Nat) : List Nat :=
  [16, oie, 0, 0] ++ le16 name.length ++ [0, 0] ++ name ++
  zeros ((4 - name.length % 4) % 4)

theorem internAtomFrame_rd16 (oie : Nat) (name : List Nat)
    (h : name.length < 65536) :
    rd16 (internAtomFrame oie name) 4 = some name.length := by
  simp [internAtomFrame, rd16, byteAt, le16, rd16_recompose, Nat.mod_eq_of_lt h]

theorem internAtomFrame_slice (oie : Nat) (name : List Nat) :
    sliceBytes (internAtomFrame oie name) 8 name.length = some name := by
  have hgroup : internAtomFrame oie name =
      ([16, oie, 0, 0] ++ le16 name.length ++ [0, 0]) ++
        (name ++ zeros ((4 - name.length % 4) % 4)) := by
    simp [internAtomFrame, List.append_assoc]
  have hlen : (internAtomFrame oie name).length =
      8 + (name.length + (4 - name.length % 4) % 4) := by
    simp [internAtomFrame, le16, zeros]
    omega
  rw [sliceBytes, if_pos (by omega)]
  rw [hgroup]
  have h8 : ([16, oie, 0, 0] ++ le16 name.length ++ [0, 0] : List Nat).length = 8 := by
    simp [le16]
  rw [← h8, List.drop_left, List.take_left]

/-- Claim C4: the fresh AtomStore maps exactly the 68 predefined names
(PRIMARY=1 .. WM_TRANSIENT_FOR=68) bidirectionally, its next free id is
69 and the first newly interned name receives exactly 69; for a name not
in the store, intern with only_if_exists = true allocates nothing and the
InternAtom reply carries atom = 0. -/
theorem atom_store_preseed :
    AtomStore.new.next_id = 69 ∧
    AtomStore.new.by_id = predefinedAtoms ∧
    predefinedAtoms.length = 68 ∧
    (∀ p ∈ predefinedAtoms, AtomStore.new.get_name p.1 = some p.2 ∧
      AtomStore.new.get_id p.2 = some p.1) ∧
    (∀ id name, AtomStore.new.get_name id = some name →
      (id, name) ∈ predefinedAtoms) ∧
    (∀ name id, AtomStore.new.get_id name = some id →
      (id, name) ∈ predefinedAtoms) ∧
    (∀ name, AtomStore.new.get_id name = none →
      AtomStore.new.intern name true = (none, AtomStore.new) ∧
      (AtomStore.new.intern name false).1 = some 69) ∧
    (∀ (st : X11Server) (oie : Nat) (name : List Nat), st.atoms = AtomStore.new →
      oie ≠ 0 → validUtf8 name → name.length < 65536 →
      AtomStore.new.get_id name = none →
      handle_intern_atom st (internAtomFrame oie name) =
        some (st, .ok ([1, 0] ++ le16 st.sequence ++ le32 0 ++ le32 0 ++ zeros 20))) := by
  refine ⟨rfl, rfl, by decide, by decide, ?_, ?_, ?_, ?_⟩
  · intro id name h
    exact assoc_mem h
  · intro name id h
    have hmem := assoc_mem h
    simp only [AtomStore.new, List.mem_map] at hmem
    obtain ⟨p, hp, hpe⟩ := hmem
    obtain ⟨a, b⟩ := p
    cases hpe
    exact hp
  · intro name h
    constructor
    · simp [AtomStore.intern, AtomStore.get_id] at h ⊢
      simp [h]
    · simp [AtomStore.intern, AtomStore.get_id] at h ⊢
      simp [h]
      rfl
  · intro st oie name hst hoie hutf hlen hmiss
    have hb1 : byteAt (internAtomFrame oie name) 1 = some oie := rfl
    have h16 := internAtomFrame_rd16 oie name hlen
    have hsl := internAtomFrame_slice oie name
    simp only [handle_intern_atom, bind, Option.bind_eq_bind, hb1, h16, hsl,
      Option.some_bind, hutf, if_true]
    have : st.atoms.intern name (decide (oie ≠ 0)) = (none, st.atoms) := by
      rw [hst]
      simp [AtomStore.intern, AtomStore.get_id] at hmiss ⊢
      simp [hmiss, hoie]
    rw [this]
    rfl

theorem atom_store_preseed_witness :
    AtomStore.new.get_id helloBytes = none ∧
    AtomStore.new.intern helloBytes true = (none, AtomStore.new) ∧
    (AtomStore.new.intern helloBytes false).1 = some 69 := by
  obtain ⟨-, -, -, -, -, -, h7, -⟩ := atom_store_preseed
  exact ⟨by decide, (h7 helloBytes (by decide)).1, (h7 helloBytes (by decide)).2⟩


/-! ## Claim C5 — window tree invariants -/

/-- The ids stored in a window store. -/
def wkeys (s : List Window) : List Nat := s.map Window.id

theorem lookupW_eq_none {s : List Window} {i : Nat} :
    lookupW s i = none ↔ ∀ w ∈ s, w.id ≠ i := by
  induction s with
  | nil => simp [lookupW]
  | cons a rest ih => by_cases ha : a.id = i <;> simp [lookupW, ha, ih]

theorem lookupW_of_mem {s : List Window} {w : Window}
    (nd : (wkeys s).Nodup) (h : w ∈ s) : lookupW s w.id = some w := by
  induction s with
  | nil => simp at h
  | cons a rest ih =>
    rw [wkeys, List.map_cons, List.nodup_cons] at nd
    rcases List.mem_cons.mp h with rfl | h2
    · simp [lookupW]
    · have hw : w.id ∈ wkeys rest := List.mem_map_of_mem _ h2
      have ha : a.id ≠ w.id := fun he => nd.1 (by rwa [he])
      simp [lookupW, ha]
      exact ih nd.2 h2

theorem updateW_eq_map {s : List Window} (i : Nat) (f : Window → Window)
    (nd : (wkeys s).Nodup) :
    updateW s i f = s.map (fun w => if w.id = i then f w else w) := by
  induction s with
  | nil => rfl
  | cons a rest ih =>
    rw [wkeys, List.map_cons, List.nodup_cons] at nd
    by_cases ha : a.id = i
    · have hrest : rest.map (fun w => if w.id = i then f w else w) = rest := by
        refine (List.map_congr_left ?_).trans (List.map_id rest)
        intro w hw
        have hwi : w.id ≠ i := fun he => nd.1 (by
          rw [ha]
          exact he ▸ List.mem_map_of_mem _ hw)
        simp [hwi]
      simp [updateW, ha, hrest]
    · simp [updateW, ha, ih nd.2]

theorem eraseW_eq_filter {s : List Window} (i : Nat)
    (nd : (wkeys s).Nodup) :
    eraseW s i = s.filter (fun w => w.id ≠ i) := by
  induction s with
  | nil => rfl
  | cons a rest ih =>
    rw [wkeys, List.map_cons, List.nodup_cons] at nd
    by_cases ha : a.id = i
    · have hrest : rest.filter (fun w => !decide (w.id = i)) = rest := by
        rw [List.filter_eq_self]
        intro w hw
        have hwi : w.id ≠ i := fun he => nd.1 (by
          rw [ha]
          exact he ▸ List.mem_map_of_mem _ hw)
        simp [hwi]
      rw [show eraseW (a :: rest) i = rest from by simp [eraseW, ha]]
      simp only [List.filter_cons]
      simp [ha]
      exact hrest.symm
    · simp [eraseW, ha, ih nd.2]

theorem insertW_of_absent {s : List Window} {w : Window}
    (h : lookupW s w.id = none) : insertW s w = s ++ [w] := by
  induction s with
  | nil => rfl
  | cons a rest ih =>
    by_cases ha : a.id = w.id <;> simp [lookupW, ha] at h
    simp [insertW, ha, ih h]

theorem lookupW_updateW {s : List Window} {i : Nat} {f : Window → Window}
    (hf : ∀ w, (f w).id = w.id) (j : Nat) :
    lookupW (updateW s i f) j =
      if j = i then Option.map f (lookupW s i) else lookupW s j := by
  induction s with
  | nil => by_cases hj : j = i <;> simp [updateW, lookupW, hj]
  | cons a rest ih =>
    by_cases ha : a.id = i
    · by_cases hj : j = i
      · subst hj
        rw [show updateW (a :: rest) j f = f a :: rest from by simp [updateW, ha]]
        rw [show lookupW (f a :: rest) j = some (f a) from by
          simp [lookupW, hf a, ha]]
        simp [lookupW, ha]
      · have h1 : (f a).id ≠ j := by
          rw [hf a, ha]
          exact fun he => hj he.symm
        have h2 : a.id ≠ j := by
          rw [ha]
          exact fun he => hj he.symm
        rw [show updateW (a :: rest) i f = f a :: rest from by simp [updateW, ha]]
        rw [show lookupW (f a :: rest) j = lookupW rest j from by simp [lookupW, h1]]
        rw [show lookupW (a :: rest) j = lookupW rest j from by simp [lookupW, h2]]
        simp [hj]
    · rw [show updateW (a :: rest) i f = a :: updateW rest i f from by
        simp [updateW, ha]]
      by_cases haj : a.id = j
      · have hji : ¬ j = i := fun he => ha (by rw [haj, he])
        rw [show lookupW (a :: updateW rest i f) j = some a from by
          simp [lookupW, haj]]
        rw [show lookupW (a :: rest) j = some a from by simp [lookupW, haj]]
        simp [hji]
      · rw [show lookupW (a :: updateW rest i f) j = lookupW (updateW rest i f) j from by
          simp [lookupW, haj]]
        rw [show lookupW (a :: rest) j = lookupW rest j from by simp [lookupW, haj]]
        rw [show lookupW (a :: rest) i = lookupW rest i from by simp [lookupW, ha]]
        exact ih

theorem lookupW_eraseW_ne {s : List Window} {i j : Nat} (h : j ≠ i) :
    lookupW (eraseW s i) j = lookupW s j := by
  induction s with
  | nil => rfl
  | cons a rest ih =>
    by_cases ha : a.id = i
    · have haj : a.id ≠ j := by
        rw [ha]
        exact Ne.symm h
      rw [show eraseW (a :: rest) i = rest from by simp [eraseW, ha],
        show lookupW (a :: rest) j = lookupW rest j from by simp [lookupW, haj]]
    · rw [show eraseW (a :: rest) i = a :: eraseW rest i from by simp [eraseW, ha]]
      by_cases haj : a.id = j
      · rw [show lookupW (a :: eraseW rest i) j = some a from by simp [lookupW, haj],
          show lookupW (a :: rest) j = some a from by simp [lookupW, haj]]
      · rw [show lookupW (a :: eraseW rest i) j = lookupW (eraseW rest i) j from by
            simp [lookupW, haj],
          show lookupW (a :: rest) j = lookupW rest j from by simp [lookupW, haj], ih]

theorem lookupW_eraseW_self {s : List Window} {i : Nat}
    (nd : (wkeys s).Nodup) : lookupW (eraseW s i) i = none := by
  rw [eraseW_eq_filter i nd, lookupW_eq_none]
  intro w hw
  have := List.of_mem_filter hw
  simpa using this

theorem wkeys_updateW {s : List Window} {i : Nat} {f : Window → Window}
    (hf : ∀ w, (f w).id = w.id) : wkeys (updateW s i f) = wkeys s := by
  induction s with
  | nil => rfl
  | cons a rest ih =>
    by_cases ha : a.id = i
    · rw [show updateW (a :: rest) i f = f a :: rest from by simp [updateW, ha]]
      simp [wkeys, hf a]
    · rw [show updateW (a :: rest) i f = a :: updateW rest i f from by
          simp [updateW, ha]]
      simp only [wkeys, List.map_cons]
      rw [← wkeys, ← wkeys, ih]


/-- The destroyAll equation on the empty worklist. -/
theorem destroyAll_nil (s : List Window) : destroyAll s [] = s := by
  rw [destroyAll]

/-- The destroyAll equation when the head id is absent. -/
theorem destroyAll_cons_none {s : List Window} {i : Nat} {rest : List Nat}
    (h : lookupW s i = none) : destroyAll s (i :: rest) = destroyAll s rest := by
  rw [destroyAll, h]

/-- The destroyAll equation when the head id is present. -/
theorem destroyAll_cons_some {s : List Window} {i : Nat} {rest : List Nat}
    {w : Window} (h : lookupW s i = some w) :
    destroyAll s (i :: rest) =
      destroyAll
        (updateW (eraseW s i) w.parent
          (fun p => { p with children := p.children.filter (fun c => c ≠ i) }))
        (w.children ++ rest) := by
  rw [destroyAll, h]

/-- The invariant over a raw window store: ids are unique, child-list
entries are exactly the live windows pointing back at their parent with
no duplicates, and every non-root window is listed by its parent. -/
structure StoreInv (root : Nat) (s : List Window) : Prop where
  nd : (wkeys s).Nodup
  closed : ∀ w ∈ s, ∀ c ∈ w.children, ∃ x ∈ s, x.id = c ∧ x.parent = w.id
  chNodup : ∀ w ∈ s, w.children.Nodup
  plink : ∀ w ∈ s, w.id ≠ root →
    ∃ p ∈ s, p.id = w.parent ∧ w.id ∈ p.children

/-- The invariant of a WindowTree. -/
def TreeInv (t : WindowTree) : Prop := StoreInv t.root t.windows

/-- The generalized invariant carried through the destroy worklist: a
non-root window either satisfies the parent link or is scheduled for
destruction. -/
structure GenInv (root : Nat) (s : List Window) (l : List Nat) : Prop where
  nd : (wkeys s).Nodup
  closed : ∀ w ∈ s, ∀ c ∈ w.children, ∃ x ∈ s, x.id = c ∧ x.parent = w.id
  chNodup : ∀ w ∈ s, w.children.Nodup
  plink : ∀ w ∈ s, w.id ≠ root →
    (∃ p ∈ s, p.id = w.parent ∧ w.id ∈ p.children) ∨ w.id ∈ l

theorem GenInv.of_storeInv {root : Nat} {s : List Window} (h : StoreInv root s)
    (l : List Nat) : GenInv root s l :=
  ⟨h.nd, h.closed, h.chNodup, fun w hw hr => Or.inl (h.plink w hw hr)⟩

theorem GenInv.to_storeInv {root : Nat} {s : List Window}
    (h : GenInv root s []) : StoreInv root s :=
  ⟨h.nd, h.closed, h.chNodup, fun w hw hr => by
    rcases h.plink w hw hr with hp | hmem
    · exact hp
    · simp at hmem⟩

/-- StoreInv survives any rewrite of the store that keeps id, parent and
children of every window. -/
theorem StoreInv.map_congr {root : Nat} {s : List Window}
    (h : StoreInv root s) (g : Window → Window)
    (hg : ∀ w, (g w).id = w.id ∧ (g w).parent = w.parent ∧
      (g w).children = w.children) :
    StoreInv root (s.map g) := by
  refine ⟨?_, ?_, ?_, ?_⟩
  · have : wkeys (s.map g) = wkeys s := by
      rw [wkeys, wkeys, List.map_map]
      exact List.map_congr_left fun w _ => (hg w).1
    rw [this]
    exact h.nd
  · intro w hw c hc
    obtain ⟨y, hy, rfl⟩ := List.mem_map.mp hw
    rw [(hg y).2.2] at hc
    obtain ⟨x, hx, hxc⟩ := h.closed y hy c hc
    exact ⟨g x, List.mem_map_of_mem g hx,
      by rw [(hg x).1, hxc.1], by rw [(hg x).2.1, hxc.2, (hg y).1]⟩
  · intro w hw
    obtain ⟨y, hy, rfl⟩ := List.mem_map.mp hw
    rw [(hg y).2.2]
    exact h.chNodup y hy
  · intro w hw hr
    obtain ⟨y, hy, rfl⟩ := List.mem_map.mp hw
    rw [(hg y).1] at hr ⊢
    obtain ⟨p, hp, hpe, hpc⟩ := h.plink y hy hr
    refine ⟨g p, List.mem_map_of_mem g hp, ?_, ?_⟩
    · rw [(hg p).1, hpe, (hg y).2.1]
    · rw [(hg p).2.2]
      exact hpc


theorem mem_id_unique {s : List Window} (nd : (wkeys s).Nodup) {x y : Window}
    (hx : x ∈ s) (hy : y ∈ s) (he : x.id = y.id) : x = y := by
  have h1 := lookupW_of_mem nd hx
  have h2 := lookupW_of_mem nd hy
  rw [he, h2] at h1
  exact (Option.some_inj.mp h1).symm

theorem wkeys_filter_nodup {s : List Window} {p : Window → Bool}
    (nd : (wkeys s).Nodup) : (wkeys (s.filter p)).Nodup :=
  List.Nodup.sublist (List.Sublist.map Window.id (List.filter_sublist s)) nd

theorem wkeys_mem_of_mem {s : List Window} {w : Window} (h : w ∈ s) :
    w.id ∈ wkeys s := List.mem_map_of_mem _ h

theorem not_mem_wkeys_of_lookup_none {s : List Window} {i : Nat}
    (h : lookupW s i = none) : i ∉ wkeys s := by
  intro hmem
  obtain ⟨v, hv, he⟩ := List.mem_map.mp hmem
  exact lookupW_eq_none.mp h v hv he

/-- map_window / unmap_window keep the invariant: only the mapped flag
changes. -/
theorem StoreInv.update_flag {root : Nat} {s : List Window}
    (h : StoreInv root s) (id : Nat) (b : Bool) :
    StoreInv root (updateW s id (fun w => { w with mapped := b })) := by
  rw [updateW_eq_map id _ h.nd]
  refine h.map_congr _ (fun w => ?_)
  by_cases hw : w.id = id <;> simp [hw]

/-- create_window keeps the invariant when the created id is fresh, the
parent is present, and the new window has no children. -/
theorem StoreInv.create {root : Nat} {s : List Window} (h : StoreInv root s)
    (w : Window) (hid : lookupW s w.id = none)
    (hpar : (lookupW s w.parent).isSome) (hch : w.children = []) :
    StoreInv root
      (updateW (insertW s w) w.parent
        (fun p => { p with children := p.children ++ [w.id] })) := by
  obtain ⟨p0, hp0⟩ := Option.isSome_iff_exists.mp hpar
  have hp0m : p0 ∈ s := lookupW_mem hp0
  have hp0id : p0.id = w.parent := lookupW_id hp0
  have hwid : w.id ∉ wkeys s := not_mem_wkeys_of_lookup_none hid
  have hppar : w.parent ≠ w.id := by
    intro he
    exact hwid (he ▸ hp0id ▸ wkeys_mem_of_mem hp0m)
  have hins : insertW s w = s ++ [w] := insertW_of_absent hid
  have nd2 : (wkeys (s ++ [w])).Nodup := by
    rw [wkeys, List.map_append]
    rw [List.nodup_append]
    exact ⟨h.nd, List.nodup_singleton _, by simpa [wkeys] using hwid⟩
  rw [hins, updateW_eq_map _ _ nd2]
  set g := fun v : Window =>
    if v.id = w.parent then { v with children := v.children ++ [w.id] } else v with hg
  have hgid : ∀ v, (g v).id = v.id := by
    intro v
    by_cases hv : v.id = w.parent <;> simp [hg, hv]
  have hgpar : ∀ v, (g v).parent = v.parent := by
    intro v
    by_cases hv : v.id = w.parent <;> simp [hg, hv]
  have hwpne : ¬ w.id = w.parent := fun he => hppar he.symm
  have hgw : g w = w := by simp [hg, hwpne]
  have hmemw : ∀ v, v ∈ s ++ [w] → v = w ∨ v ∈ s := by
    intro v hv
    rcases List.mem_append.mp hv with hv | hv
    · exact Or.inr hv
    · exact Or.inl (List.mem_singleton.mp hv)
  refine ⟨?_, ?_, ?_, ?_⟩
  · have : wkeys ((s ++ [w]).map g) = wkeys (s ++ [w]) := by
      rw [wkeys, wkeys, List.map_map]
      exact List.map_congr_left fun v _ => hgid v
    rw [this]
    exact nd2
  · intro v' hv' c hc
    obtain ⟨v, hv, rfl⟩ := List.mem_map.mp hv'
    by_cases hvp : v.id = w.parent
    · rw [show (g v).children = v.children ++ [w.id] from by simp [hg, hvp]] at hc
      rcases List.mem_append.mp hc with hc | hc
      · have hvs : v ∈ s := by
          rcases hmemw v hv with rfl | hvs
          · exact absurd hvp (fun he => hppar he.symm)
          · exact hvs
        obtain ⟨x, hx, hx1, hx2⟩ := h.closed v hvs c hc
        exact ⟨g x, List.mem_map_of_mem g (List.mem_append_left _ hx),
          by rw [hgid x, hx1], by rw [hgpar x, hx2, hgid v]⟩
      · have hc : c = w.id := List.mem_singleton.mp hc
        refine ⟨g w, List.mem_map_of_mem g (List.mem_append_right _ (List.mem_singleton_self w)), ?_, ?_⟩
        · rw [hgw, hc]
        · rw [hgw, hgid v, hvp]
    · rw [show (g v).children = v.children from by simp [hg, hvp]] at hc
      rcases hmemw v hv with rfl | hvs
      · rw [hch] at hc
        simp at hc
      · obtain ⟨x, hx, hx1, hx2⟩ := h.closed v hvs c hc
        exact ⟨g x, List.mem_map_of_mem g (List.mem_append_left _ hx),
          by rw [hgid x, hx1], by rw [hgpar x, hx2, hgid v]⟩
  · intro v' hv'
    obtain ⟨v, hv, rfl⟩ := List.mem_map.mp hv'
    by_cases hvp : v.id = w.parent
    · rw [show (g v).children = v.children ++ [w.id] from by simp [hg, hvp]]
      have hvs : v ∈ s := by
        rcases hmemw v hv with rfl | hvs
        · exact absurd hvp (fun he => hppar he.symm)
        · exact hvs
      have hnotin : w.id ∉ v.children := by
        intro hin
        obtain ⟨x, hx, hx1, _⟩ := h.closed v hvs w.id hin
        exact hwid (hx1 ▸ wkeys_mem_of_mem hx)
      rw [List.nodup_append]
      exact ⟨h.chNodup v hvs, List.nodup_singleton _, by simpa using hnotin⟩
    · rw [show (g v).children = v.children from by simp [hg, hvp]]
      rcases hmemw v hv with rfl | hvs
      · rw [hch]
        exact List.nodup_nil
      · exact h.chNodup v hvs
  · intro v' hv' hr
    obtain ⟨v, hv, rfl⟩ := List.mem_map.mp hv'
    rw [hgid v] at hr
    rcases hmemw v hv with rfl | hvs
    · refine ⟨g p0, List.mem_map_of_mem g (List.mem_append_left _ hp0m), ?_, ?_⟩
      · rw [hgid p0, hp0id, hgpar v]
      · rw [hgid v]
        rw [show (g p0).children = p0.children ++ [v.id] from by simp [hg, hp0id]]
        exact List.mem_append_right _ (List.mem_singleton_self _)
    · obtain ⟨p, hp, hpe, hpc⟩ := h.plink v hvs hr
      refine ⟨g p, List.mem_map_of_mem g (List.mem_append_left _ hp), ?_, ?_⟩
      · rw [hgid p, hpe, hgpar v]
      · rw [hgid v]
        by_cases hpp : p.id = w.parent
        · rw [show (g p).children = p.children ++ [w.id] from by simp [hg, hpp]]
          exact List.mem_append_left _ hpc
        · rw [show (g p).children = p.children from by simp [hg, hpp]]
          exact hpc


/-- One destroy step preserves the generalized invariant: the head id is
removed, filtered from its parent, and its children join the worklist. -/
theorem geninv_destroy_step {root : Nat} {s : List Window} {i : Nat}
    {rest : List Nat} {w : Window} (hg : GenInv root s (i :: rest))
    (hlk : lookupW s i = some w) :
    GenInv root
      (updateW (eraseW s i) w.parent
        (fun p => { p with children := p.children.filter (fun c => c ≠ i) }))
      (w.children ++ rest) := by
  have hwid : w.id = i := lookupW_id hlk
  have hwmem : w ∈ s := lookupW_mem hlk
  have nds := hg.nd
  have hs2f : eraseW s i = s.filter (fun v => v.id ≠ i) := eraseW_eq_filter i nds
  have nd2 : (wkeys (eraseW s i)).Nodup := by
    rw [hs2f]
    exact wkeys_filter_nodup nds
  have hmem2 : ∀ v, v ∈ eraseW s i → v ∈ s ∧ v.id ≠ i := by
    intro v hv
    rw [hs2f] at hv
    have h1 := List.mem_of_mem_filter hv
    have h2 := List.of_mem_filter hv
    exact ⟨h1, by simpa using h2⟩
  have hmem2' : ∀ v, v ∈ s → v.id ≠ i → v ∈ eraseW s i := by
    intro v hv hvi
    rw [hs2f]
    exact List.mem_filter.mpr ⟨hv, by simpa using hvi⟩
  rw [updateW_eq_map _ _ nd2]
  set M := fun v : Window => if v.id = w.parent then
    { v with children := v.children.filter (fun c => c ≠ i) } else v with hMdef
  have hMid : ∀ v, (M v).id = v.id := by
    intro v
    by_cases hv : v.id = w.parent <;> simp [hMdef, hv]
  have hMpar : ∀ v, (M v).parent = v.parent := by
    intro v
    by_cases hv : v.id = w.parent <;> simp [hMdef, hv]
  have hMch : ∀ v c, c ∈ (M v).children → c ∈ v.children ∧ (v.id = w.parent → c ≠ i) := by
    intro v c hc
    by_cases hv : v.id = w.parent
    · rw [show (M v).children = v.children.filter (fun c => c ≠ i) from by
        simp [hMdef, hv]] at hc
      have h1 := List.of_mem_filter hc
      have h2 := List.mem_of_mem_filter hc
      exact ⟨h2, fun _ => by simpa using h1⟩
    · rw [show (M v).children = v.children from by simp [hMdef, hv]] at hc
      exact ⟨hc, fun he => absurd he hv⟩
  have hMch2 : ∀ v c, c ∈ v.children → c ≠ i → c ∈ (M v).children := by
    intro v c hc hci
    by_cases hv : v.id = w.parent
    · rw [show (M v).children = v.children.filter (fun c => c ≠ i) from by
        simp [hMdef, hv]]
      exact List.mem_filter.mpr ⟨hc, by simpa using hci⟩
    · rw [show (M v).children = v.children from by simp [hMdef, hv]]
      exact hc
  have hMnodup : ∀ v, v.children.Nodup → (M v).children.Nodup := by
    intro v hv
    by_cases hvp : v.id = w.parent
    · rw [show (M v).children = v.children.filter (fun c => c ≠ i) from by
        simp [hMdef, hvp]]
      exact List.Nodup.filter _ hv
    · rw [show (M v).children = v.children from by simp [hMdef, hvp]]
      exact hv
  refine ⟨?_, ?_, ?_, ?_⟩
  · have : wkeys ((eraseW s i).map M) = wkeys (eraseW s i) := by
      rw [wkeys, wkeys, List.map_map]
      exact List.map_congr_left fun v _ => hMid v
    rw [this]
    exact nd2
  · intro v' hv' c hc
    obtain ⟨v, hv, rfl⟩ := List.mem_map.mp hv'
    obtain ⟨hvs, hvi⟩ := hmem2 v hv
    obtain ⟨hcv, hcp⟩ := hMch v c hc
    obtain ⟨x, hx, hx1, hx2⟩ := hg.closed v hvs c hcv
    have hci : c ≠ i := by
      by_cases hvp : v.id = w.parent
      · exact hcp hvp
      · intro he
        have hxw : x = w := mem_id_unique nds hx hwmem (by rw [hx1, he, hwid])
        exact hvp (by rw [← hx2, hxw])
    have hxs2 : x ∈ eraseW s i := hmem2' x hx (by rw [hx1]; exact hci)
    exact ⟨M x, List.mem_map_of_mem M hxs2, by rw [hMid x, hx1],
      by rw [hMpar x, hx2, hMid v]⟩
  · intro v' hv'
    obtain ⟨v, hv, rfl⟩ := List.mem_map.mp hv'
    obtain ⟨hvs, _⟩ := hmem2 v hv
    exact hMnodup v (hg.chNodup v hvs)
  · intro v' hv' hr
    obtain ⟨v, hv, rfl⟩ := List.mem_map.mp hv'
    obtain ⟨hvs, hvi⟩ := hmem2 v hv
    rw [hMid v] at hr
    rcases hg.plink v hvs hr with ⟨p, hp, hpe, hpc⟩ | hm
    · by_cases hpi : p.id = i
      · have hpw : p = w := mem_id_unique nds hp hwmem (by rw [hpi, hwid])
        right
        rw [hMid v]
        exact List.mem_append_left _ (hpw ▸ hpc)
      · left
        have hps2 : p ∈ eraseW s i := hmem2' p hp hpi
        refine ⟨M p, List.mem_map_of_mem M hps2, ?_, ?_⟩
        · rw [hMid p, hpe, hMpar v]
        · rw [hMid v]
          exact hMch2 p v.id hpc hvi
    · right
      rw [hMid v]
      rcases List.mem_cons.mp hm with he | hm2
      · exact absurd he hvi
      · exact List.mem_append_right _ hm2

/-- Running the destroy worklist from a GenInv state lands in a StoreInv
state (induction on the store size, then on the worklist). -/
theorem destroyAll_storeInv (n : Nat) :
    ∀ (s : List Window) (l : List Nat) (root : Nat),
      s.length ≤ n → GenInv root s l → StoreInv root (destroyAll s l) := by
  induction n with
  | zero =>
    intro s l root hlen _hg
    have hs : s = [] := List.length_eq_zero.mp (Nat.le_zero.mp hlen)
    subst hs
    have hnil : ∀ l2 : List Nat, destroyAll [] l2 = [] := by
      intro l2
      induction l2 with
      | nil => exact destroyAll_nil []
      | cons j r2 ih2 => rw [destroyAll_cons_none (by simp [lookupW]), ih2]
    rw [hnil]
    exact ⟨by simp [wkeys], by simp, by simp, by simp⟩
  | succ n ih =>
    intro s l root hlen
    induction l with
    | nil =>
      intro hg
      rw [destroyAll_nil]
      exact hg.to_storeInv
    | cons i rest ihl =>
      intro hg
      cases hlk : lookupW s i with
      | none =>
        rw [destroyAll_cons_none hlk]
        apply ihl
        refine ⟨hg.nd, hg.closed, hg.chNodup, ?_⟩
        intro w hw hr
        rcases hg.plink w hw hr with hp | hm
        · exact Or.inl hp
        · rcases List.mem_cons.mp hm with he | hm2
          · exact absurd he (lookupW_eq_none.mp hlk w hw)
          · exact Or.inr hm2
      | some w =>
        rw [destroyAll_cons_some hlk]
        apply ih
        · have h1 := eraseW_length hlk
          rw [updateW_length]
          omega
        · exact geninv_destroy_step hg hlk

/-- destroy_window preserves the tree invariant. -/
theorem TreeInv.destroy {t : WindowTree} (h : TreeInv t) (id : Nat) :
    TreeInv (t.destroy_window id) :=
  destroyAll_storeInv t.windows.length t.windows [id] t.root (Nat.le_refl _)
    (GenInv.of_storeInv h [id])

/-- create_window preserves the tree invariant under the create
preconditions. -/
theorem TreeInv.create_step {t : WindowTree} (h : TreeInv t) (w : Window)
    (hid : lookupW t.windows w.id = none)
    (hpar : (lookupW t.windows w.parent).isSome) (hch : w.children = []) :
    TreeInv (t.create_window w) :=
  StoreInv.create h w hid hpar hch

/-- map_window preserves the tree invariant. -/
theorem TreeInv.map_window {t : WindowTree} (h : TreeInv t) (id : Nat) :
    TreeInv (t.map_window id) :=
  StoreInv.update_flag h id true

/-- unmap_window preserves the tree invariant. -/
theorem TreeInv.unmap_window {t : WindowTree} (h : TreeInv t) (id : Nat) :
    TreeInv (t.unmap_window id) :=
  StoreInv.update_flag h id false

/-- The initial root-only tree satisfies the invariant. -/
theorem TreeInv.init (root_id width height : Nat) :
    TreeInv (WindowTree.new root_id width height) := by
  refine ⟨?_, ?_, ?_, ?_⟩
  · simp [WindowTree.new, wkeys, Window.new_root]
  · intro w hw c hc
    simp [WindowTree.new, Window.new_root] at hw
    subst hw
    simp at hc
  · intro w hw
    simp [WindowTree.new, Window.new_root] at hw
    subst hw
    exact List.nodup_nil
  · intro w hw hr
    simp [WindowTree.new, Window.new_root] at hw
    subst hw
    simp [WindowTree.new, Window.new_root] at hr

/-- The precondition-respecting reachable states of a WindowTree:
create_window is applied only to a fresh id, an existing parent and an
empty child list (as handle_create_window builds windows via Window::new);
destroy, map and unmap are unrestricted. -/
inductive Reachable : WindowTree → Prop where
  | init (root_id width height : Nat) :
      Reachable (WindowTree.new root_id width height)
  | create {t : WindowTree} (w : Window) : Reachable t →
      lookupW t.windows w.id = none →
      (lookupW t.windows w.parent).isSome →
      w.children = [] →
      Reachable (t.create_window w)
  | destroy {t : WindowTree} (id : Nat) : Reachable t →
      Reachable (t.destroy_window id)
  | map {t : WindowTree} (id : Nat) : Reachable t →
      Reachable (t.map_window id)
  | unmap {t : WindowTree} (id : Nat) : Reachable t →
      Reachable (t.unmap_window id)

/-- Every reachable tree satisfies the invariant. -/
theorem Reachable.treeInv {t : WindowTree} (h : Reachable t) : TreeInv t := by
  induction h with
  | init root_id width height => exact TreeInv.init root_id width height
  | create w _ hid hpar hch ih => exact ih.create_step w hid hpar hch
  | destroy id _ ih => exact ih.destroy id
  | map id _ ih => exact ih.map_window id
  | unmap id _ ih => exact ih.unmap_window id


/-- Reachability along child-list edges: the descendants that
destroy_window's recursion visits. -/
inductive ReachC (s : List Window) : Nat → Nat → Prop where
  | refl (a : Nat) : ReachC s a a
  | step {a b c : Nat} (w : Window) : lookupW s a = some w → b ∈ w.children →
      ReachC s b c → ReachC s a c

/-- Lookup misses are stable under the destroy worklist: destroyAll never
adds windows. -/
theorem destroyAll_lookup_none (n : Nat) :
    ∀ (s : List Window) (l : List Nat) (x : Nat), s.length ≤ n →
      lookupW s x = none → lookupW (destroyAll s l) x = none := by
  induction n with
  | zero =>
    intro s l x hlen hx
    have hs : s = [] := List.length_eq_zero.mp (Nat.le_zero.mp hlen)
    subst hs
    have hnil : ∀ l2 : List Nat, destroyAll ([] : List Window) l2 = [] := by
      intro l2
      induction l2 with
      | nil => exact destroyAll_nil []
      | cons j r2 ih2 => rw [destroyAll_cons_none (by simp [lookupW]), ih2]
    rw [hnil]
    simp [lookupW]
  | succ n ih =>
    intro s l x hlen
    induction l with
    | nil =>
      intro hx
      rw [destroyAll_nil]
      exact hx
    | cons i rest ihl =>
      intro hx
      cases hlk : lookupW s i with
      | none =>
        rw [destroyAll_cons_none hlk]
        exact ihl hx
      | some w =>
        rw [destroyAll_cons_some hlk]
        apply ih
        · have h1 := eraseW_length hlk
          rw [updateW_length]
          omega
        · have hxi : x ≠ i := by
            intro he
            rw [he, hlk] at hx
            cases hx
          rw [lookupW_updateW
            (f := fun p => { p with children := p.children.filter (fun c => c ≠ i) })
            (fun p => rfl) x]
          have herase : lookupW (eraseW s i) x = none := by
            rw [lookupW_eraseW_ne hxi]
            exact hx
          by_cases hxp : x = w.parent
          · rw [if_pos hxp, ← hxp, herase]
            rfl
          · rw [if_neg hxp, herase]


theorem mem_of_mem_eraseW {s : List Window} {i : Nat} {v : Window}
    (h : v ∈ eraseW s i) : v ∈ s := by
  induction s with
  | nil => simpa [eraseW] using h
  | cons a rest ih =>
    by_cases ha : a.id = i
    · rw [show eraseW (a :: rest) i = rest from by simp [eraseW, ha]] at h
      exact List.mem_cons_of_mem _ h
    · rw [show eraseW (a :: rest) i = a :: eraseW rest i from by
        simp [eraseW, ha]] at h
      rcases List.mem_cons.mp h with rfl | h2
      · exact List.mem_cons_self _ _
      · exact List.mem_cons_of_mem _ (ih h2)

theorem mem_of_mem_updateW {s : List Window} {i : Nat} {f : Window → Window}
    {v : Window} (h : v ∈ updateW s i f) : v ∈ s ∨ ∃ y ∈ s, v = f y := by
  induction s with
  | nil => simpa [updateW] using h
  | cons a rest ih =>
    by_cases ha : a.id = i
    · rw [show updateW (a :: rest) i f = f a :: rest from by simp [updateW, ha]] at h
      rcases List.mem_cons.mp h with rfl | h2
      · exact Or.inr ⟨a, List.mem_cons_self _ _, rfl⟩
      · exact Or.inl (List.mem_cons_of_mem _ h2)
    · rw [show updateW (a :: rest) i f = a :: updateW rest i f from by
        simp [updateW, ha]] at h
      rcases List.mem_cons.mp h with rfl | h2
      · exact Or.inl (List.mem_cons_self _ _)
      · rcases ih h2 with h3 | ⟨y, hy, he⟩
        · exact Or.inl (List.mem_cons_of_mem _ h3)
        · exact Or.inr ⟨y, List.mem_cons_of_mem _ hy, he⟩

/-- If no current child list mentions c, none does after any amount of
destroying (the worklist only removes windows and filters lists). -/
theorem destroyAll_no_child (n : Nat) :
    ∀ (s : List Window) (l : List Nat) (c : Nat), s.length ≤ n →
      (∀ v ∈ s, c ∉ v.children) → ∀ v ∈ destroyAll s l, c ∉ v.children := by
  induction n with
  | zero =>
    intro s l c hlen hno v hv
    have hs : s = [] := List.length_eq_zero.mp (Nat.le_zero.mp hlen)
    subst hs
    have hnil : ∀ l2 : List Nat, destroyAll ([] : List Window) l2 = [] := by
      intro l2
      induction l2 with
      | nil => exact destroyAll_nil []
      | cons j r2 ih2 => rw [destroyAll_cons_none (by simp [lookupW]), ih2]
    rw [hnil] at hv
    simp at hv
  | succ n ih =>
    intro s l c hlen
    induction l with
    | nil =>
      intro hno v hv
      rw [destroyAll_nil] at hv
      exact hno v hv
    | cons i rest ihl =>
      intro hno
      cases hlk : lookupW s i with
      | none =>
        rw [destroyAll_cons_none hlk]
        exact ihl hno
      | some w =>
        rw [destroyAll_cons_some hlk]
        apply ih
        · have h1 := eraseW_length hlk
          rw [updateW_length]
          omega
        · intro v hv
          rcases mem_of_mem_updateW hv with h2 | ⟨y, hy, rfl⟩
          · exact hno v (mem_of_mem_eraseW h2)
          · intro hc
            simp only [List.mem_filter] at hc
            exact hno y (mem_of_mem_eraseW hy) hc.1

/-- After one destroy step the deleted id appears in no child list. -/
theorem destroy_step_no_child {s : List Window} {i : Nat} {w : Window}
    (hinv : StoreInv root s) (hlk : lookupW s i = some w) :
    ∀ v ∈ updateW (eraseW s i) w.parent
        (fun p => { p with children := p.children.filter (fun c => c ≠ i) }),
      i ∉ v.children := by
  intro v hv hc
  have hwid : w.id = i := lookupW_id hlk
  have hwmem : w ∈ s := lookupW_mem hlk
  rcases mem_of_mem_updateW hv with h2 | ⟨y, hy, rfl⟩
  · -- an untouched window still listing i: then it is the parent entry,
    -- but the parent entry was the one rewritten — contradiction via nodup
    have hvs : v ∈ s := mem_of_mem_eraseW h2
    obtain ⟨x, hx, hx1, hx2⟩ := hinv.closed v hvs i hc
    have hxw : x = w := mem_id_unique hinv.nd hx hwmem (by rw [hx1, hwid])
    -- so v.id = w.parent; but then updateW rewrote the (unique) entry
    have hvp : v.id = w.parent := by rw [← hx2, hxw]
    -- v survives in eraseW s i and equals the first w.parent entry there;
    -- lookupW of the updated store at w.parent returns the filtered window,
    -- and by nodup v would be that filtered window — whose list lacks i
    have hvi : v.id ≠ i := lookupW_eq_none.mp (lookupW_eraseW_self hinv.nd) v h2
    have nd2 : (wkeys (eraseW s i)).Nodup := by
      rw [eraseW_eq_filter i hinv.nd]
      exact wkeys_filter_nodup hinv.nd
    have hlv : lookupW (eraseW s i) v.id = some v := lookupW_of_mem nd2 h2
    have nd3 : (wkeys (updateW (eraseW s i) w.parent
        (fun p => { p with children := p.children.filter (fun c => c ≠ i) }))).Nodup := by
      rw [wkeys_updateW
        (f := fun p => { p with children := p.children.filter (fun c => c ≠ i) })
        (fun p => rfl)]
      exact nd2
    have hlv2 := lookupW_of_mem nd3 hv
    rw [lookupW_updateW
      (f := fun p => { p with children := p.children.filter (fun c => c ≠ i) })
      (fun p => rfl) v.id, if_pos hvp, ← hvp, hlv] at hlv2
    have : v = { v with children := v.children.filter (fun c => c ≠ i) } :=
      Option.some_inj.mp hlv2.symm
    have hch : v.children = v.children.filter (fun c => c ≠ i) :=
      congrArg Window.children this
    rw [hch] at hc
    have := List.of_mem_filter hc
    simp at this
  · simp only [List.mem_filter] at hc
    simp at hc


theorem lookupW_step_state_self {s : List Window} {i : Nat} {w : Window}
    (nd : (wkeys s).Nodup) (hlk : lookupW s i = some w) :
    lookupW (updateW (eraseW s i) w.parent
      (fun p => { p with children := p.children.filter (fun c => c ≠ i) })) i = none := by
  rw [lookupW_updateW
    (f := fun p => { p with children := p.children.filter (fun c => c ≠ i) })
    (fun p => rfl) i]
  have he := lookupW_eraseW_self (s := s) (i := i) nd
  by_cases hip : i = w.parent
  · rw [if_pos hip, ← hip, he]
    rfl
  · rw [if_neg hip, he]

theorem reachC_dead {s : List Window} {i x : Nat}
    (hnone : lookupW s i = none) (hr : ReachC s i x) : x = i := by
  cases hr with
  | refl => rfl
  | step w hw hb hr2 =>
    rw [hnone] at hw
    cases hw

/-- Chains in the original store that do not end at the deleted id start
over, after one destroy step, either at the same node or at one of the
deleted window's children. -/
theorem reachC_avoid {s : List Window} {i : Nat} {w : Window}
    (nd : (wkeys s).Nodup) (hlk : lookupW s i = some w) :
    ∀ {a x : Nat}, ReachC s a x → x ≠ i →
      ∃ b, (b = a ∨ b ∈ w.children) ∧
        ReachC (updateW (eraseW s i) w.parent
          (fun p => { p with children := p.children.filter (fun c => c ≠ i) })) b x := by
  intro a x hr
  induction hr with
  | refl a =>
    intro _hx
    exact ⟨a, Or.inl rfl, ReachC.refl a⟩
  | @step a b c wa hwa hb hr2 ih =>
    intro hx
    obtain ⟨b', hb', hrb'⟩ := ih hx
    rcases hb' with rfl | hbw
    · by_cases hai : a = i
      · have hww : wa = w := by
          rw [hai, hlk] at hwa
          exact (Option.some_inj.mp hwa).symm
        exact ⟨b', Or.inr (hww ▸ hb), hrb'⟩
      · by_cases hbi : b' = i
        · have hnone := lookupW_step_state_self nd hlk
          rw [hbi] at hrb'
          exact absurd (reachC_dead hnone hrb') hx
        · by_cases hap : a = w.parent
          · have hedge : lookupW (updateW (eraseW s i) w.parent
                (fun p => { p with children := p.children.filter (fun c => c ≠ i) })) a =
                some { wa with children := wa.children.filter (fun c => c ≠ i) } := by
              rw [lookupW_updateW
                (f := fun p => { p with children := p.children.filter (fun c => c ≠ i) })
                (fun p => rfl) a, if_pos hap, ← hap, lookupW_eraseW_ne hai, hwa]
              rfl
            refine ⟨a, Or.inl rfl, ReachC.step _ hedge ?_ hrb'⟩
            exact List.mem_filter.mpr ⟨hb, by simpa using hbi⟩
          · have hedge : lookupW (updateW (eraseW s i) w.parent
                (fun p => { p with children := p.children.filter (fun c => c ≠ i) })) a =
                some wa := by
              rw [lookupW_updateW
                (f := fun p => { p with children := p.children.filter (fun c => c ≠ i) })
                (fun p => rfl) a, if_neg hap, lookupW_eraseW_ne hai, hwa]
            exact ⟨a, Or.inl rfl, ReachC.step wa hedge hb hrb'⟩
    · exact ⟨b', Or.inr hbw, hrb'⟩

/-- Everything child-reachable from the worklist is gone after destroyAll. -/
theorem destroyAll_kills (n : Nat) :
    ∀ (s : List Window) (l : List Nat) (x : Nat), s.length ≤ n →
      (wkeys s).Nodup → (∃ a ∈ l, ReachC s a x) →
      lookupW (destroyAll s l) x = none := by
  induction n with
  | zero =>
    intro s l x hlen _nd _hex
    have hs : s = [] := List.length_eq_zero.mp (Nat.le_zero.mp hlen)
    subst hs
    have hnil : ∀ l2 : List Nat, destroyAll ([] : List Window) l2 = [] := by
      intro l2
      induction l2 with
      | nil => exact destroyAll_nil []
      | cons j r2 ih2 => rw [destroyAll_cons_none (by simp [lookupW]), ih2]
    rw [hnil]
    simp [lookupW]
  | succ n ih =>
    intro s l x hlen
    induction l with
    | nil =>
      intro _nd hex
      obtain ⟨a, ha, _⟩ := hex
      simp at ha
    | cons i rest ihl =>
      intro nd hex
      obtain ⟨a, ha, hra⟩ := hex
      cases hlk : lookupW s i with
      | none =>
        rw [destroyAll_cons_none hlk]
        rcases List.mem_cons.mp ha with rfl | ha2
        · cases hra with
          | refl => exact destroyAll_lookup_none (n + 1) s rest x hlen hlk
          | step w2 hw2 hb2 hr2 =>
            rw [hlk] at hw2
            cases hw2
        · exact ihl nd ⟨a, ha2, hra⟩
      | some w =>
        rw [destroyAll_cons_some hlk]
        have hbound : (updateW (eraseW s i) w.parent
            (fun p => { p with children := p.children.filter (fun c => c ≠ i) })).length ≤ n := by
          have h1 := eraseW_length hlk
          rw [updateW_length]
          omega
        have nd' : (wkeys (updateW (eraseW s i) w.parent
            (fun p => { p with children := p.children.filter (fun c => c ≠ i) }))).Nodup := by
          rw [wkeys_updateW
            (f := fun p => { p with children := p.children.filter (fun c => c ≠ i) })
            (fun p => rfl), eraseW_eq_filter i nd]
          exact wkeys_filter_nodup nd
        by_cases hxi : x = i
        · subst hxi
          exact destroyAll_lookup_none n _ _ x hbound (lookupW_step_state_self nd hlk)
        · rcases List.mem_cons.mp ha with rfl | ha2
          · obtain ⟨b, hbcase, hrb⟩ := reachC_avoid nd hlk hra hxi
            rcases hbcase with rfl | hbw
            · exact absurd (reachC_dead (lookupW_step_state_self nd hlk) hrb) hxi
            · exact ih _ _ x hbound nd' ⟨b, List.mem_append_left _ hbw, hrb⟩
          · obtain ⟨b, hbcase, hrb⟩ := reachC_avoid nd hlk hra hxi
            rcases hbcase with rfl | hbw
            · exact ih _ _ x hbound nd' ⟨b, List.mem_append_right _ ha2, hrb⟩
            · exact ih _ _ x hbound nd' ⟨b, List.mem_append_left _ hbw, hrb⟩


/-- Claim C5 as stated is false: create_window accepts windows whose
parent id is absent, so a state with a dangling parent is reachable from
the root-only state by one unrestricted create_window. -/
theorem window_tree_claim_counterexample :
    (lookupW ((WindowTree.new 1 800 600).create_window
      (Window.new 2 99 0 0 10 10 0 24 .InputOutput 33)).windows 2).isSome ∧
    (2 : Nat) ≠ ((WindowTree.new 1 800 600).create_window
      (Window.new 2 99 0 0 10 10 0 24 .InputOutput 33)).root ∧
    lookupW ((WindowTree.new 1 800 600).create_window
      (Window.new 2 99 0 0 10 10 0 24 .InputOutput 33)).windows 99 = none := by
  decide

/-- Claim C5 (amended): in every state reachable from the initial
root-only tree by create_window calls whose window id is fresh, whose
parent is present and whose child list is empty (as handle_create_window
produces them), plus arbitrary destroy/map/unmap calls, every non-root
window has a live parent whose child list holds its id exactly once; and
destroy_window(W) removes W's id from every remaining child list and
removes W and all its descendants (along child-list edges) from the
store. -/
theorem window_tree_invariant (t : WindowTree) (h : Reachable t) :
    (∀ w ∈ t.windows, w.id ≠ t.root →
      ∃ p, lookupW t.windows w.parent = some p ∧ p.children.count w.id = 1) ∧
    (∀ id w, lookupW t.windows id = some w →
      (∀ v ∈ (t.destroy_window id).windows, id ∉ v.children) ∧
      (∀ x, ReachC t.windows id x →
        lookupW (t.destroy_window id).windows x = none)) := by
  have hinv := h.treeInv
  constructor
  · intro w hw hr
    obtain ⟨p, hp, hpe, hpc⟩ := hinv.plink w hw hr
    refine ⟨p, ?_, ?_⟩
    · rw [← hpe]
      exact lookupW_of_mem hinv.nd hp
    · exact List.count_eq_one_of_mem (hinv.chNodup p hp) hpc
  · intro id w hlk
    constructor
    · intro v hv
      rw [WindowTree.destroy_window, destroyAll_cons_some hlk] at hv
      exact destroyAll_no_child
        (updateW (eraseW t.windows id) w.parent
          (fun p => { p with children := p.children.filter (fun c => c ≠ id) })).length
        _ _ id (Nat.le_refl _) (destroy_step_no_child hinv hlk) v hv
    · intro x hrx
      show lookupW (destroyAll t.windows [id]) x = none
      exact destroyAll_kills t.windows.length t.windows [id] x (Nat.le_refl _)
        hinv.nd ⟨id, List.mem_singleton_self id, hrx⟩

/-- A concrete precondition-respecting tree: the root plus one child. -/
def sampleTree : WindowTree :=
  (WindowTree.new 1 800 600).create_window (Window.new 2 1 0 0 10 10 0 24 .InputOutput 33)

theorem window_tree_invariant_witness :
    (∀ w ∈ sampleTree.windows, w.id ≠ sampleTree.root →
      ∃ p, lookupW sampleTree.windows w.parent = some p ∧ p.children.count w.id = 1) ∧
    (∀ id w, lookupW sampleTree.windows id = some w →
      (∀ v ∈ (sampleTree.destroy_window id).windows, id ∉ v.children) ∧
      (∀ x, ReachC sampleTree.windows id x →
        lookupW (sampleTree.destroy_window id).windows x = none)) :=
  window_tree_invariant sampleTree
    (Reachable.create _ (Reachable.init 1 800 600) (by decide) (by decide) rfl)


/-! ## Claim C7 — mapped_windows / collect_mapped -/

/-- A tree with a mapped window (3) below an unmapped window (2) below
the root. -/
def hiddenTree : WindowTree :=
  ((((WindowTree.new 1 800 600).create_window
      (Window.new 2 1 10 10 50 50 0 24 .InputOutput 33)).create_window
      (Window.new 3 2 1 2 30 30 0 24 .InputOutput 33)).map_window 3)

/-- Claim C7 as stated is false: window 3 is mapped and its parent chain
(3 → 2 → 1) reaches the root, yet mapped_windows returns nothing because
collect_mapped never descends below the unmapped window 2. -/
theorem mapped_windows_claim_counterexample :
    hiddenTree.mapped_windows 10 = [] ∧
    (lookupW hiddenTree.windows 3).map Window.mapped = some true ∧
    (lookupW hiddenTree.windows 3).map Window.parent = some 2 ∧
    (lookupW hiddenTree.windows 2).map Window.parent = some 1 ∧
    hiddenTree.root = 1 := by
  decide

/-- A rank function certifying that child edges strictly descend — it
bounds the recursion depth of collect_mapped and rules out cycles. -/
def RankOk (t : WindowTree) (rank : Nat → Nat) : Prop :=
  ∀ w ∈ t.windows, ∀ c ∈ w.children, rank c < rank w.id

instance (t : WindowTree) (rank : Nat → Nat) : Decidable (RankOk t rank) := by
  unfold RankOk
  infer_instance

/-- The specification-side characterization of collect_mapped output: a
chain of child-list edges starting at the traversal origin on which every
window (origin included) is mapped; each step accumulates the window's
(x, y) offset with i16 wraparound, and the tree root itself produces no
entry. -/
inductive ViewableFrom (t : WindowTree) : Nat → Int → Int → MappedWin → Prop where
  | here {id : Nat} {px py : Int} (w : Window) :
      lookupW t.windows id = some w → w.mapped = true → id ≠ t.root →
      ViewableFrom t id px py
        (id, wrap16 (px + w.x), wrap16 (py + w.y), w.width, w.height)
  | deeper {id : Nat} {px py : Int} {c : Nat} {tup : MappedWin} (w : Window) :
      lookupW t.windows id = some w → w.mapped = true → c ∈ w.children →
      ViewableFrom t c (wrap16 (px + w.x)) (wrap16 (py + w.y)) tup →
      ViewableFrom t id px py tup

theorem collect_mapped_mem (t : WindowTree) (rank : Nat → Nat)
    (hrank : RankOk t rank) :
    ∀ (fuel id : Nat) (px py : Int), rank id < fuel →
      ∀ tup, (tup ∈ t.collect_mapped fuel id px py ↔ ViewableFrom t id px py tup) := by
  intro fuel
  induction fuel with
  | zero =>
    intro id px py h
    exact absurd h (Nat.not_lt_zero _)
  | succ fuel ih =>
    intro id px py hlt tup
    cases hlk : lookupW t.windows id with
    | none =>
      simp only [WindowTree.collect_mapped, hlk, List.not_mem_nil, false_iff]
      intro hv
      cases hv with
      | here w hl => rw [hlk] at hl; cases hl
      | deeper w hl => rw [hlk] at hl; cases hl
    | some w =>
      by_cases hm : w.mapped
      · simp only [WindowTree.collect_mapped, hlk, hm, if_true, List.mem_append]
        constructor
        · intro hmem
          rcases hmem with h1 | h2
          · by_cases hroot : id ≠ t.root
            · rw [if_pos hroot] at h1
              have := List.mem_singleton.mp h1
              subst this
              exact ViewableFrom.here w hlk hm hroot
            · rw [if_neg hroot] at h1
              simp at h1
          · obtain ⟨l2, hl2, htup⟩ := List.mem_flatten.mp h2
            obtain ⟨c, hc, rfl⟩ := List.mem_map.mp hl2
            have hcr : rank c < fuel := by
              have h2 := hrank w (lookupW_mem hlk) c hc
              have h3 := lookupW_id hlk
              rw [h3] at h2
              omega
            exact ViewableFrom.deeper w hlk hm hc
              ((ih c _ _ hcr _).mp htup)
        · intro hv
          cases hv with
          | here w2 hl2 hm2 hr2 =>
            rw [hlk] at hl2
            cases hl2
            left
            rw [if_pos hr2]
            exact List.mem_singleton_self _
          | @deeper _ _ _ c2 _ w2 hl2 hm2 hc hv2 =>
            rw [hlk] at hl2
            injection hl2 with hww
            subst hww
            right
            refine List.mem_flatten.mpr
              ⟨t.collect_mapped fuel c2 (wrap16 (px + w.x)) (wrap16 (py + w.y)),
                List.mem_map_of_mem _ hc, ?_⟩
            have hcr : rank c2 < fuel := by
              have h2 := hrank w (lookupW_mem hlk) c2 hc
              have h3 := lookupW_id hlk
              rw [h3] at h2
              omega
            exact (ih c2 _ _ hcr tup).mpr hv2
      · simp only [WindowTree.collect_mapped, hlk]
        rw [if_neg hm]
        simp only [List.not_mem_nil, false_iff]
        intro hv
        cases hv with
        | here w2 hl2 hm2 => rw [hlk] at hl2; cases hl2; exact hm hm2
        | deeper w2 hl2 hm2 => rw [hlk] at hl2; cases hl2; exact hm hm2

/-- The specification-side walk, written from the spec's order words: a
depth-first traversal from the given window that iterates children in
insertion order, emits each mapped non-root window (absolute coordinates
= wrapping sum of the ancestor offsets plus its own x, y) before its
descendants, and does not descend below unmapped windows.  It is
fuel-free: recursion descends along a strictly rank-decreasing child
edge, and an edge that would not decrease contributes nothing (under
RankOk that case never arises). -/
def specWalk (t : WindowTree) (rank : Nat → Nat) (id : Nat) (ox oy : Int) :
    List MappedWin :=
  match lookupW t.windows id with
  | none => []
  | some w =>
    if w.mapped then
      (if id ≠ t.root then
        [(id, wrap16 (ox + w.x), wrap16 (oy + w.y), w.width, w.height)]
       else []) ++
      (w.children.map (fun c =>
        if hlt : rank c < rank id then
          specWalk t rank c (wrap16 (ox + w.x)) (wrap16 (oy + w.y))
        else [])).flatten
    else []
termination_by rank id
decreasing_by exact hlt

/-- collect_mapped agrees with the spec-side depth-first walk as a list —
entries, multiplicity and order included — whenever the fuel covers the
rank of the starting window. -/
theorem collect_mapped_eq_specWalk (t : WindowTree) (rank : Nat → Nat)
    (hrank : RankOk t rank) :
    ∀ (fuel id : Nat) (px py : Int), rank id < fuel →
      t.collect_mapped fuel id px py = specWalk t rank id px py := by
  intro fuel
  induction fuel with
  | zero =>
    intro id px py h
    exact absurd h (Nat.not_lt_zero _)
  | succ fuel ih =>
    intro id px py hlt
    rw [specWalk]
    cases hlk : lookupW t.windows id with
    | none => simp only [WindowTree.collect_mapped, hlk]
    | some w =>
      by_cases hm : w.mapped
      · simp only [WindowTree.collect_mapped, hlk, hm, if_true]
        congr 1
        congr 1
        refine List.map_congr_left ?_
        intro c hc
        have hcr : rank c < rank id := by
          have h2 := hrank w (lookupW_mem hlk) c hc
          have h3 := lookupW_id hlk
          rw [h3] at h2
          exact h2
        rw [dif_pos hcr]
        exact ih c _ _ (by omega)
      · simp only [WindowTree.collect_mapped, hlk]
        rw [if_neg hm, if_neg hm]

/-- Claim C7 (amended): mapped_windows IS the spec-side depth-first walk
from the root — same entries, same multiplicity, same order: children in
insertion order, each mapped non-root window before its descendants —
and its members are exactly the windows whose whole chain from the root
(root included, the window itself included) is mapped, annotated with
the wrapping sum of the ancestor offsets plus their own (x, y); windows
below an unmapped ancestor (and everything when the root is unmapped)
are omitted.  The fuel hypothesis discharges the source's unbounded
recursion via any child-edge-descending rank. -/
theorem mapped_windows_spec (t : WindowTree) (rank : Nat → Nat)
    (hrank : RankOk t rank) (fuel : Nat) (hfuel : rank t.root < fuel) :
    t.mapped_windows fuel = specWalk t rank t.root 0 0 ∧
    (∀ tup : MappedWin,
      tup ∈ t.mapped_windows fuel ↔ ViewableFrom t t.root 0 0 tup) :=
  ⟨collect_mapped_eq_specWalk t rank hrank fuel t.root 0 0 hfuel,
   fun tup => collect_mapped_mem t rank hrank fuel t.root 0 0 hfuel tup⟩

/-- hiddenTree with window 2 also mapped: every window is viewable. -/
def shownTree : WindowTree := hiddenTree.map_window 2

theorem mapped_windows_spec_witness :
    RankOk shownTree (fun n => 4 - n) ∧ 4 - shownTree.root < 10 ∧
    shownTree.mapped_windows 10 =
      [(2, 10, 10, 50, 50), (3, 11, 12, 30, 30)] ∧
    (shownTree.mapped_windows 10 =
        specWalk shownTree (fun n => 4 - n) shownTree.root 0 0 ∧
      (∀ tup : MappedWin,
        tup ∈ shownTree.mapped_windows 10 ↔
          ViewableFrom shownTree shownTree.root 0 0 tup)) :=
  ⟨by decide, by decide, by decide,
    mapped_windows_spec shownTree (fun n => 4 - n) (by decide) 10 (by decide)⟩


/-! ## Positional wire reads in concatenated frames -/

theorem byteAt_append_right (pre l : List Nat) (k : Nat) :
    byteAt (pre ++ l) (pre.length + k) = byteAt l k := by
  induction pre with
  | nil => simp [byteAt]
  | cons a as ih =>
    show byteAt (a :: (as ++ l)) (as.length + 1 + k) = byteAt l k
    have h : as.length + 1 + k = (as.length + k) + 1 := by omega
    rw [h]
    exact ih

theorem rd16_append (pre : List Nat) (n : Nat) (rest : List Nat) :
    rd16 (pre ++ (le16 n ++ rest)) pre.length = some (n % 65536) := by
  have h0 : byteAt (pre ++ (le16 n ++ rest)) pre.length = some (n % 256) := by
    have h := byteAt_append_right pre (le16 n ++ rest) 0
    rw [Nat.add_zero] at h
    rw [h]
    rfl
  have h1 : byteAt (pre ++ (le16 n ++ rest)) (pre.length + 1) =
      some (n / 256 % 256) := by
    rw [byteAt_append_right pre (le16 n ++ rest) 1]
    rfl
  rw [rd16]
  simp only [h0, h1]
  show some (n % 256 + 256 * (n / 256 % 256)) = some (n % 65536)
  exact congrArg some (rd16_recompose n)

theorem rd32_append (pre : List Nat) (n : Nat) (rest : List Nat) :
    rd32 (pre ++ (le32 n ++ rest)) pre.length = some (n % 4294967296) := by
  have h0 : byteAt (pre ++ (le32 n ++ rest)) pre.length = some (n % 256) := by
    have h := byteAt_append_right pre (le32 n ++ rest) 0
    rw [Nat.add_zero] at h
    rw [h]
    rfl
  have h1 : byteAt (pre ++ (le32 n ++ rest)) (pre.length + 1) =
      some (n / 256 % 256) := by
    rw [byteAt_append_right pre (le32 n ++ rest) 1]
    rfl
  have h2 : byteAt (pre ++ (le32 n ++ rest)) (pre.length + 2) =
      some (n / 65536 % 256) := by
    rw [byteAt_append_right pre (le32 n ++ rest) 2]
    rfl
  have h3 : byteAt (pre ++ (le32 n ++ rest)) (pre.length + 3) =
      some (n / 16777216 % 256) := by
    rw [byteAt_append_right pre (le32 n ++ rest) 3]
    rfl
  rw [rd32]
  simp only [h0, h1, h2, h3]
  show some (n % 256 + 256 * (n / 256 % 256) + 65536 * (n / 65536 % 256) +
    16777216 * (n / 16777216 % 256)) = some (n % 4294967296)
  exact congrArg some (rd32_recompose n)

theorem build_connection_reply_head (st : X11Server) :
    (build_connection_reply st).get? 0 = some 1 := by
  rw [build_connection_reply]
  simp only [List.append_assoc, List.cons_append, List.get?_cons_zero]

/-- A connected server, as after a successful connection setup (only the
state flag differs from X11Server::new). -/
def testServer : X11Server :=
  { X11Server.new 1280 720 with state := .Connected }

/-! ## Claim C2 — reply length words (code bug) -/

/-- Claim C2 fails in the code: the RANDR GetScreenResources reply is 80
bytes but its length word says 14, so length*4+32 = 88 ≠ 80 (the same
slip exists in GetOutputInfo, GetCrtcInfo and XInput QueryPointer). -/
theorem randr_screen_resources_length_bug :
    ((process_request testServer [140, 5, 1, 0]).map
      (fun p => Except.map (fun r => (r.get? 0, r.length, rd32 r 4)) p.2)) =
      some (.ok (some 1, 80, some 14)) ∧ (14 * 4 + 32 : Nat) ≠ 80 := by
  exact ⟨rfl, by decide⟩

/-! ## Claim C8 — totality of process_request (code bug) -/

/-- Claim C8 fails in the code: the 4-byte frame [1,0,1,0] is a complete
CreateWindow frame per its own length word (1 unit = 4 bytes), yet
handle_create_window indexes data[4..28] without bounds checks, which
panics in Rust — the None of the embedding. -/
theorem create_window_short_frame_panics :
    process_request testServer [1, 0, 1, 0] = none ∧
    rd16 [1, 0, 1, 0] 2 = some 1 ∧ ([1, 0, 1, 0] : List Nat).length = 1 * 4 := by
  exact ⟨rfl, rfl, rfl⟩

/-! ## Claim C9 — connection setup byte-order validation -/

/-- Claim C9 fails in the code: a 12-byte setup frame whose byte 0 is 0
(neither 0x6C nor 0x42) still gets a success reply (byte 0 = 1) and the
connection still transitions to Connected. -/
theorem connection_setup_claim_counterexample :
    ((process_request (X11Server.new 1280 720) (zeros 12)).map
      (fun p => (p.1.state, Except.map (fun r => r.get? 0) p.2))) =
      some (ConnectionState.Connected, .ok (some 1)) ∧
    byteAt (zeros 12) 0 = some 0 ∧ (0 : Nat) ≠ 108 ∧ (0 : Nat) ≠ 66 := by
  exact ⟨rfl, rfl, by decide, by decide⟩

/-- Claim C9 (amended): handle_connection_setup never validates the
byte-order byte — every setup frame of at least 12 bytes produces the
success reply and moves the connection to Connected, whatever its first
byte; only frames shorter than 12 bytes are rejected (Err, state
unchanged). -/
theorem connection_setup_no_validation (st : X11Server) (data : List Nat)
    (hstate : st.state = .AwaitingSetup) (hlen : 12 ≤ data.length) :
    process_request st data =
      some ({ st with state := .Connected }, .ok (build_connection_reply st)) ∧
    (build_connection_reply st).get? 0 = some 1 ∧
    (∀ data2 : List Nat, data2.length < 12 →
      process_request st data2 = some (st, .error .setupTooShort)) := by
  have hdisp : ∀ d : List Nat, process_request st d = handle_connection_setup st d := by
    intro d
    rw [process_request, hstate]
  have hnot : ¬ data.length < 12 := by omega
  obtain ⟨b0, h0⟩ : ∃ b, byteAt data 0 = some b :=
    ⟨_, List.get?_eq_get (by omega)⟩
  obtain ⟨a2, ha2⟩ : ∃ b, byteAt data 2 = some b :=
    ⟨_, List.get?_eq_get (by omega)⟩
  obtain ⟨a3, ha3⟩ : ∃ b, byteAt data 3 = some b :=
    ⟨_, List.get?_eq_get (by omega)⟩
  obtain ⟨a4, ha4⟩ : ∃ b, byteAt data 4 = some b :=
    ⟨_, List.get?_eq_get (by omega)⟩
  obtain ⟨a5, ha5⟩ : ∃ b, byteAt data 5 = some b :=
    ⟨_, List.get?_eq_get (by omega)⟩
  obtain ⟨a6, ha6⟩ : ∃ b, byteAt data 6 = some b :=
    ⟨_, List.get?_eq_get (by omega)⟩
  obtain ⟨a7, ha7⟩ : ∃ b, byteAt data 7 = some b :=
    ⟨_, List.get?_eq_get (by omega)⟩
  obtain ⟨a8, ha8⟩ : ∃ b, byteAt data 8 = some b :=
    ⟨_, List.get?_eq_get (by omega)⟩
  obtain ⟨a9, ha9⟩ : ∃ b, byteAt data 9 = some b :=
    ⟨_, List.get?_eq_get (by omega)⟩
  have e2 : rd16 data 2 = some (a2 + 256 * a3) := by
    rw [rd16]
    simp only [ha2, ha3]
    rfl
  have e4 : rd16 data 4 = some (a4 + 256 * a5) := by
    rw [rd16]
    simp only [ha4, ha5]
    rfl
  have e6 : rd16 data 6 = some (a6 + 256 * a7) := by
    rw [rd16]
    simp only [ha6, ha7]
    rfl
  have e8 : rd16 data 8 = some (a8 + 256 * a9) := by
    rw [rd16]
    simp only [ha8, ha9]
    rfl
  refine ⟨?_, build_connection_reply_head st, ?_⟩
  · rw [hdisp, handle_connection_setup, if_neg hnot]
    simp only [h0, e2, e4, e6, e8]
    rfl
  · intro data2 hs
    rw [hdisp, handle_connection_setup, if_pos hs]
    rfl

theorem connection_setup_no_validation_witness :
    (X11Server.new 1280 720).state = .AwaitingSetup ∧
    (12 ≤ (zeros 12).length) ∧
    (process_request (X11Server.new 1280 720) (zeros 12) =
      some ({ X11Server.new 1280 720 with state := .Connected },
        .ok (build_connection_reply (X11Server.new 1280 720))) ∧
    (build_connection_reply (X11Server.new 1280 720)).get? 0 = some 1 ∧
    (∀ data2 : List Nat, data2.length < 12 →
      process_request (X11Server.new 1280 720) data2 =
        some (X11Server.new 1280 720, .error .setupTooShort))) :=
  ⟨rfl, by decide,
    connection_setup_no_validation (X11Server.new 1280 720) (zeros 12) rfl (by decide)⟩


/-! ## Claim C10 — MapWindow/UnmapWindow on unknown ids -/

theorem updateW_absent {s : List Window} {i : Nat} (f : Window → Window)
    (h : lookupW s i = none) : updateW s i f = s := by
  induction s with
  | nil => rfl
  | cons a s ih =>
    by_cases ha : a.id = i
    · simp [lookupW, ha] at h
    · rw [updateW, if_neg ha, ih (by simpa [lookupW, ha] using h)]

/-- Claim C10: a MapWindow frame always appends exactly one 32-byte
MapNotify event (even for ids absent from the store), MapWindow and
UnmapWindow on an absent id leave the window store untouched, and both
produce the empty reply (no reply bytes, no error). -/
theorem map_unmap_window_event_spec (st : X11Server) (wid : Nat)
    (hstate : st.state = .Connected) (hwid : wid < 4294967296) :
    (process_request st ([8, 0, 2, 0] ++ le32 wid) =
      some ({ st with
          sequence := (st.sequence + 1) % 65536,
          windows := st.windows.map_window wid,
          events := st.events ++
            [[19, 0, 0, 0] ++ le32 wid ++ le32 wid ++ zeros 20] }, .ok []) ∧
     ([19, 0, 0, 0] ++ le32 wid ++ le32 wid ++ zeros 20).length = 32) ∧
    (process_request st ([10, 0, 2, 0] ++ le32 wid) =
      some ({ st with
          sequence := (st.sequence + 1) % 65536,
          windows := st.windows.unmap_window wid }, .ok [])) ∧
    (lookupW st.windows.windows wid = none →
      (st.windows.map_window wid).windows = st.windows.windows ∧
      (st.windows.unmap_window wid).windows = st.windows.windows) := by
  have h4m : rd32 ([8, 0, 2, 0] ++ le32 wid) 4 = some wid := by
    have h := rd32_after4 8 0 2 0 wid []
    rw [Nat.mod_eq_of_lt hwid] at h
    simpa using h
  have h4u : rd32 ([10, 0, 2, 0] ++ le32 wid) 4 = some wid := by
    have h := rd32_after4 10 0 2 0 wid []
    rw [Nat.mod_eq_of_lt hwid] at h
    simpa using h
  refine ⟨⟨?_, by simp [le32, zeros]⟩, ?_, ?_⟩
  · rw [show process_request st ([8, 0, 2, 0] ++ le32 wid) =
        handle_request st ([8, 0, 2, 0] ++ le32 wid) from by
      rw [process_request, hstate]]
    rw [show handle_request st ([8, 0, 2, 0] ++ le32 wid) =
        handle_map_window { st with sequence := (st.sequence + 1) % 65536 }
          ([8, 0, 2, 0] ++ le32 wid) from rfl]
    rw [handle_map_window]
    simp only [h4m]
    rfl
  · rw [show process_request st ([10, 0, 2, 0] ++ le32 wid) =
        handle_request st ([10, 0, 2, 0] ++ le32 wid) from by
      rw [process_request, hstate]]
    rw [show handle_request st ([10, 0, 2, 0] ++ le32 wid) =
        handle_unmap_window { st with sequence := (st.sequence + 1) % 65536 }
          ([10, 0, 2, 0] ++ le32 wid) from rfl]
    rw [handle_unmap_window]
    simp only [h4u]
    rfl
  · intro h
    exact ⟨updateW_absent _ h, updateW_absent _ h⟩

theorem map_unmap_window_event_spec_witness :
    testServer.state = .Connected ∧ (77 : Nat) < 4294967296 ∧
    lookupW testServer.windows.windows 77 = none ∧
    ((process_request testServer ([8, 0, 2, 0] ++ le32 77) =
      some ({ testServer with
          sequence := (testServer.sequence + 1) % 65536,
          windows := testServer.windows.map_window 77,
          events := testServer.events ++
            [[19, 0, 0, 0] ++ le32 77 ++ le32 77 ++ zeros 20] }, .ok []) ∧
     ([19, 0, 0, 0] ++ le32 77 ++ le32 77 ++ zeros 20).length = 32) ∧
    (process_request testServer ([10, 0, 2, 0] ++ le32 77) =
      some ({ testServer with
          sequence := (testServer.sequence + 1) % 65536,
          windows := testServer.windows.unmap_window 77 }, .ok [])) ∧
    (lookupW testServer.windows.windows 77 = none →
      (testServer.windows.map_window 77).windows = testServer.windows.windows ∧
      (testServer.windows.unmap_window 77).windows = testServer.windows.windows)) :=
  ⟨rfl, by decide, by decide,
    map_unmap_window_event_spec testServer 77 rfl (by decide)⟩


/-! ## Claim C6 — CreateWindow / GetGeometry roundtrip -/

/-- The 28-byte CreateWindow wire frame (opcode 1, length word 7). -/
def createWindowFrame (d wid parent x y w h bw cls visual : Nat) : List Nat :=
  [1, d, 7, 0] ++ le32 wid ++ le32 parent ++ le16 x ++ le16 y ++
  le16 w ++ le16 h ++ le16 bw ++ le16 cls ++ le32 visual

/-- Claim C6 fails in the code: CreateWindow with width 0 and height 0
stores the dimensions unfloored, so GetGeometry returns width bytes
[0, 0] instead of the claimed le16 1 = [1, 0] (x roundtrips fine: [5, 0]). -/
theorem create_get_geometry_claim_counterexample :
    ((process_request testServer (createWindowFrame 0 2 1 5 6 0 0 0 1 0)).bind
      (fun p => process_request p.1 ([14, 0, 2, 0] ++ le32 2))).map
      (fun p => Except.map (fun r => ((r.drop 16).take 2, (r.drop 12).take 2)) p.2) =
      some (.ok ([0, 0], [5, 0])) ∧ ([0, 0] : List Nat) ≠ le16 1 :=
  ⟨rfl, by decide⟩

theorem rd16_offset (l pre rest : List Nat) (n i : Nat)
    (hl : l = pre ++ (le16 n ++ rest)) (hi : pre.length = i) :
    rd16 l i = some (n % 65536) := by
  subst hi
  rw [hl]
  exact rd16_append pre n rest

theorem rd32_offset (l pre rest : List Nat) (n i : Nat)
    (hl : l = pre ++ (le32 n ++ rest)) (hi : pre.length = i) :
    rd32 l i = some (n % 4294967296) := by
  subst hi
  rw [hl]
  exact rd32_append pre n rest

theorem createWindowFrame_reads (d wid parent x y w h bw cls visual : Nat) :
    byteAt (createWindowFrame d wid parent x y w h bw cls visual) 1 = some d ∧
    rd32 (createWindowFrame d wid parent x y w h bw cls visual) 4 =
      some (wid % 4294967296) ∧
    rd32 (createWindowFrame d wid parent x y w h bw cls visual) 8 =
      some (parent % 4294967296) ∧
    rd16 (createWindowFrame d wid parent x y w h bw cls visual) 12 =
      some (x % 65536) ∧
    rd16 (createWindowFrame d wid parent x y w h bw cls visual) 14 =
      some (y % 65536) ∧
    rd16 (createWindowFrame d wid parent x y w h bw cls visual) 16 =
      some (w % 65536) ∧
    rd16 (createWindowFrame d wid parent x y w h bw cls visual) 18 =
      some (h % 65536) ∧
    rd16 (createWindowFrame d wid parent x y w h bw cls visual) 20 =
      some (bw % 65536) ∧
    rd16 (createWindowFrame d wid parent x y w h bw cls visual) 22 =
      some (cls % 65536) ∧
    rd32 (createWindowFrame d wid parent x y w h bw cls visual) 24 =
      some (visual % 4294967296) := by
  refine ⟨rfl, ?_, ?_, ?_, ?_, ?_, ?_, ?_, ?_, ?_⟩
  · exact rd32_offset _ [1, d, 7, 0]
      (le32 parent ++ (le16 x ++ (le16 y ++ (le16 w ++ (le16 h ++ (le16 bw ++
        (le16 cls ++ le32 visual))))))) wid 4
      (by simp [createWindowFrame, List.append_assoc]) (by simp)
  · exact rd32_offset _ ([1, d, 7, 0] ++ le32 wid)
      (le16 x ++ (le16 y ++ (le16 w ++ (le16 h ++ (le16 bw ++
        (le16 cls ++ le32 visual)))))) parent 8
      (by simp [createWindowFrame, List.append_assoc]) (by simp [le32])
  · exact rd16_offset _ ([1, d, 7, 0] ++ le32 wid ++ le32 parent)
      (le16 y ++ (le16 w ++ (le16 h ++ (le16 bw ++ (le16 cls ++ le32 visual)))))
      x 12
      (by simp [createWindowFrame, List.append_assoc]) (by simp [le32])
  · exact rd16_offset _ ([1, d, 7, 0] ++ le32 wid ++ le32 parent ++ le16 x)
      (le16 w ++ (le16 h ++ (le16 bw ++ (le16 cls ++ le32 visual)))) y 14
      (by simp [createWindowFrame, List.append_assoc]) (by simp [le32, le16])
  · exact rd16_offset _
      ([1, d, 7, 0] ++ le32 wid ++ le32 parent ++ le16 x ++ le16 y)
      (le16 h ++ (le16 bw ++ (le16 cls ++ le32 visual))) w 16
      (by simp [createWindowFrame, List.append_assoc]) (by simp [le32, le16])
  · exact rd16_offset _
      ([1, d, 7, 0] ++ le32 wid ++ le32 parent ++ le16 x ++ le16 y ++ le16 w)
      (le16 bw ++ (le16 cls ++ le32 visual)) h 18
      (by simp [createWindowFrame, List.append_assoc]) (by simp [le32, le16])
  · exact rd16_offset _
      ([1, d, 7, 0] ++ le32 wid ++ le32 parent ++ le16 x ++ le16 y ++ le16 w ++
        le16 h) (le16 cls ++ le32 visual) bw 20
      (by simp [createWindowFrame, List.append_assoc]) (by simp [le32, le16])
  · exact rd16_offset _
      ([1, d, 7, 0] ++ le32 wid ++ le32 parent ++ le16 x ++ le16 y ++ le16 w ++
        le16 h ++ le16 bw) (le32 visual) cls 22
      (by simp [createWindowFrame, List.append_assoc]) (by simp [le32, le16])
  · exact rd32_offset _
      ([1, d, 7, 0] ++ le32 wid ++ le32 parent ++ le16 x ++ le16 y ++ le16 w ++
        le16 h ++ le16 bw ++ le16 cls) [] visual 24
      (by simp [createWindowFrame, List.append_assoc]) (by simp [le32, le16])

theorem le16i_toI16 (n : Nat) : le16i (toI16 n) = le16 (n % 65536) := by
  rw [le16i, toI16]
  congr 1
  split <;> omega

theorem lookupW_insertW_self (s : List Window) (w : Window) :
    lookupW (insertW s w) w.id = some w := by
  induction s with
  | nil => simp [insertW, lookupW]
  | cons a s ih =>
    by_cases ha : a.id = w.id
    · simp [insertW, ha, lookupW]
    · rw [insertW, if_neg ha, lookupW, if_neg ha]
      exact ih

theorem lookupW_updateW_cases (s : List Window) (j : Nat) (f : Window → Window)
    (hf : ∀ v, (f v).id = v.id) (i : Nat) :
    lookupW (updateW s j f) i =
      Option.map (fun v => if v.id = j then f v else v) (lookupW s i) := by
  induction s with
  | nil => rfl
  | cons a s ih =>
    rw [updateW]
    by_cases haj : a.id = j
    · rw [if_pos haj, lookupW, lookupW, hf a]
      by_cases hai : a.id = i
      · rw [if_pos hai, if_pos hai, Option.map_some']
        rw [if_pos haj]
      · rw [if_neg hai, if_neg hai]
        cases hlk : lookupW s i with
        | none => rfl
        | some v =>
          rw [Option.map_some']
          have hv : v.id = i := lookupW_id hlk
          have : ¬ v.id = j := by
            rw [hv]
            intro hij
            exact hai (hij ▸ haj)
          rw [if_neg this]
    · rw [if_neg haj, lookupW, lookupW]
      by_cases hai : a.id = i
      · rw [if_pos hai, if_pos hai, Option.map_some', if_neg haj]
      · rw [if_neg hai, if_neg hai, ih]

theorem create_window_get_fields (t : WindowTree) (w : Window) :
    ∃ w2, (t.create_window w).get w.id = some w2 ∧ w2.x = w.x ∧ w2.y = w.y ∧
      w2.width = w.width ∧ w2.height = w.height ∧
      w2.border_width = w.border_width ∧ w2.depth = w.depth := by
  have hmap := lookupW_updateW_cases (insertW t.windows w) w.parent
    (fun p => { p with children := p.children ++ [w.id] }) (fun v => rfl) w.id
  rw [lookupW_insertW_self] at hmap
  refine ⟨if w.id = w.parent then { w with children := w.children ++ [w.id] }
    else w, ?_, ?_, ?_, ?_, ?_, ?_, ?_⟩
  · show lookupW (updateW (insertW t.windows w) w.parent
      (fun p => { p with children := p.children ++ [w.id] })) w.id = _
    rw [hmap]
    rfl
  all_goals split <;> rfl


/-- GetGeometry on a connected server with a known drawable: one sequence
increment and the 32-byte geometry reply read off the stored window. -/
theorem get_geometry_step (st : X11Server) (wid : Nat) (w2 : Window)
    (hstate : st.state = .Connected) (hwid : wid < 4294967296)
    (hget : st.windows.get wid = some w2) :
    process_request st ([14, 0, 2, 0] ++ le32 wid) =
      some ({ st with sequence := (st.sequence + 1) % 65536 },
        .ok ([1, w2.depth] ++ le16 ((st.sequence + 1) % 65536) ++ le32 0 ++
          le32 st.windows.root_id ++ le16i w2.x ++ le16i w2.y ++
          le16 w2.width ++ le16 w2.height ++ le16 w2.border_width ++
          zeros 10)) := by
  have hr4 : rd32 ([14, 0, 2, 0] ++ le32 wid) 4 = some wid := by
    have hr := rd32_after4 14 0 2 0 wid []
    rw [Nat.mod_eq_of_lt hwid] at hr
    simpa using hr
  rw [show process_request st ([14, 0, 2, 0] ++ le32 wid) =
      handle_request st ([14, 0, 2, 0] ++ le32 wid) from by
    rw [process_request, hstate]]
  rw [show handle_request st ([14, 0, 2, 0] ++ le32 wid) =
      handle_get_geometry { st with sequence := (st.sequence + 1) % 65536 }
        ([14, 0, 2, 0] ++ le32 wid) from rfl]
  have hmatch : handle_get_geometry
      { st with sequence := (st.sequence + 1) % 65536 }
      ([14, 0, 2, 0] ++ le32 wid) =
      (match st.windows.get wid with
       | some w => some ({ st with sequence := (st.sequence + 1) % 65536 },
           .ok ([1, w.depth] ++ le16 ((st.sequence + 1) % 65536) ++ le32 0 ++
             le32 st.windows.root_id ++ le16i w.x ++ le16i w.y ++
             le16 w.width ++ le16 w.height ++ le16 w.border_width ++ zeros 10))
       | none => some ({ st with sequence := (st.sequence + 1) % 65536 },
           .ok (error_reply { st with sequence := (st.sequence + 1) % 65536 }
             9 wid))) := by
    rw [handle_get_geometry]
    simp only [hr4]
    rfl
  rw [hmatch, hget]

set_option maxHeartbeats 1000000 in
/-- Claim C6 (amended): CreateWindow stores the supplied x, y, width and
height exactly as sent — with no flooring of zero dimensions — and a
subsequent GetGeometry on the same id returns them verbatim, together
with the depth, the border width and the root id. -/
theorem create_get_geometry_roundtrip (st : X11Server)
    (depth wid parent x y w h bw cls visual : Nat)
    (hstate : st.state = .Connected)
    (hwid : wid < 4294967296) (hx : x < 65536) (hy : y < 65536)
    (hw : w < 65536) (hh : h < 65536) (hbw : bw < 65536) :
    ∃ st1,
      process_request st (createWindowFrame depth wid parent x y w h bw cls visual) =
        some (st1, .ok []) ∧
      process_request st1 ([14, 0, 2, 0] ++ le32 wid) =
        some ({ st1 with sequence := (st1.sequence + 1) % 65536 },
          .ok ([1, depth] ++ le16 ((st1.sequence + 1) % 65536) ++
            le32 0 ++ le32 st1.windows.root_id ++ le16 x ++ le16 y ++
            le16 w ++ le16 h ++ le16 bw ++ zeros 10)) := by
  obtain ⟨r1, r4, r8, r12, r14, r16, r18, r20, r22, r24⟩ :=
    createWindowFrame_reads depth wid parent x y w h bw cls visual
  rw [Nat.mod_eq_of_lt hwid] at r4
  rw [Nat.mod_eq_of_lt hx] at r12
  rw [Nat.mod_eq_of_lt hy] at r14
  rw [Nat.mod_eq_of_lt hw] at r16
  rw [Nat.mod_eq_of_lt hh] at r18
  rw [Nat.mod_eq_of_lt hbw] at r20
  set w0 : Window := Window.new wid (parent % 4294967296) (toI16 x) (toI16 y)
    w h bw depth
    (if cls % 65536 = 0 then .CopyFromParent
     else if cls % 65536 = 1 then .InputOutput
     else if cls % 65536 = 2 then .InputOnly
     else .CopyFromParent) (visual % 4294967296) with hw0def
  obtain ⟨w2, hget, hx2, hy2, hw2, hh2, hbw2, hdp2⟩ :=
    create_window_get_fields st.windows w0
  have hx3 : w2.x = toI16 x := hx2
  have hy3 : w2.y = toI16 y := hy2
  have hw3 : w2.width = w := hw2
  have hh3 : w2.height = h := hh2
  have hbw3 : w2.border_width = bw := hbw2
  have hdp3 : w2.depth = depth := hdp2
  refine ⟨{ st with
      sequence := (st.sequence + 1) % 65536,
      windows := st.windows.create_window w0 }, ?_, ?_⟩
  · have hlen : (createWindowFrame depth wid parent x y w h bw cls visual).length
        = 28 := by
      simp [createWindowFrame, le16, le32]
    have b0 : byteAt (createWindowFrame depth wid parent x y w h bw cls visual) 0
        = some 1 := rfl
    have b23 : rd16 (createWindowFrame depth wid parent x y w h bw cls visual) 2
        = some 7 := rfl
    rw [show process_request st
          (createWindowFrame depth wid parent x y w h bw cls visual) =
        handle_request st
          (createWindowFrame depth wid parent x y w h bw cls visual) from by
      rw [process_request, hstate]]
    rw [handle_request, hlen, if_neg (show ¬ (28 : Nat) < 4 by omega)]
    simp only [bind, Option.bind_eq_some]
    refine ⟨1, b0, depth, r1, 7, b23, ?_⟩
    rw [if_neg (show ¬ ((7 : Nat) * 4 > 0 ∧ 28 < 7 * 4) by omega)]
    show handle_create_window { st with sequence := (st.sequence + 1) % 65536 }
      (createWindowFrame depth wid parent x y w h bw cls visual) = _
    rw [handle_create_window]
    simp only [bind, Option.bind_eq_some]
    exact ⟨depth, r1, wid, r4, parent % 4294967296, r8, x, r12, y, r14, w, r16,
      h, r18, bw, r20, cls % 65536, r22, visual % 4294967296, r24, rfl⟩
  · have happ := get_geometry_step
      { st with
        sequence := (st.sequence + 1) % 65536,
        windows := st.windows.create_window w0 } wid w2 hstate hwid hget
    rw [happ]
    simp only [hx3, hy3, hw3, hh3, hbw3, hdp3, le16i_toI16,
      Nat.mod_eq_of_lt hx, Nat.mod_eq_of_lt hy]

set_option maxHeartbeats 4000000 in
theorem create_get_geometry_roundtrip_witness :
    testServer.state = .Connected ∧ (2 : Nat) < 4294967296 ∧
    (5 : Nat) < 65536 ∧ (6 : Nat) < 65536 ∧ (0 : Nat) < 65536 ∧
    (∃ st1,
      process_request testServer (createWindowFrame 0 2 1 5 6 0 0 0 1 0) =
        some (st1, .ok []) ∧
      process_request st1 ([14, 0, 2, 0] ++ le32 2) =
        some ({ st1 with sequence := (st1.sequence + 1) % 65536 },
          .ok ([1, 0] ++ le16 ((st1.sequence + 1) % 65536) ++
            le32 0 ++ le32 st1.windows.root_id ++ le16 5 ++ le16 6 ++
            le16 0 ++ le16 0 ++ le16 0 ++ zeros 10))) :=
  ⟨rfl, by decide, by decide, by decide, by decide,
    create_get_geometry_roundtrip testServer 0 2 1 5 6 0 0 0 1 0 rfl
      (by decide) (by decide) (by decide) (by decide) (by decide) (by decide)⟩


/-! ## Claim C1 — sequence counter discipline -/

/-- A reply byte string carries the sequence value little-endian at
offset 2 (the empty string is "no reply sent"). -/
def seqBytesOk (seq : Nat) (r : List Nat) : Prop :=
  r = [] ∨ (r.get? 2 = some (seq % 256) ∧ r.get? 3 = some (seq / 256 % 256))

/-- What every request handler guarantees: the sequence is untouched,
every produced reply is empty or carries the handler's sequence at
offset 2, and every event present afterwards was already queued or has
zero bytes at offsets 2 and 3. -/
abbrev HandlerOk (st st2 : X11Server) (r : Except RequestError (List Nat)) :
    Prop :=
  st2.sequence = st.sequence ∧
  (∀ reply, r = .ok reply → seqBytesOk st.sequence reply) ∧
  (∀ e ∈ st2.events, e ∈ st.events ∨ (e.get? 2 = some 0 ∧ e.get? 3 = some 0))

theorem hseq_create_window (st : X11Server) (data : List Nat)
    (st2 : X11Server) (r : Except RequestError (List Nat))
    (h : handle_create_window st data = some (st2, r)) : HandlerOk st st2 r := by
  simp only [handle_create_window, bind, Option.bind_eq_some, pure,
    Option.some_inj] at h
  obtain ⟨a1, h1, a2, h2, a3, h3, a4, h4, a5, h5, a6, h6, a7, h7, a8, h8,
    a9, h9, a10, h10, h⟩ := h
  cases h
  refine ⟨rfl, ?_, fun e he => Or.inl he⟩
  rintro reply hr
  cases hr
  exact Or.inl rfl

theorem hseq_change_window_attributes (st : X11Server) (data : List Nat)
    (st2 : X11Server) (r : Except RequestError (List Nat))
    (h : handle_change_window_attributes st data = some (st2, r)) :
    HandlerOk st st2 r := by
  simp only [handle_change_window_attributes, bind, Option.bind_eq_some, pure,
    Option.some_inj] at h
  obtain ⟨a1, h1, h⟩ := h
  cases h
  refine ⟨rfl, ?_, fun e he => Or.inl he⟩
  rintro reply hr
  cases hr
  exact Or.inl rfl

theorem hseq_get_window_attributes (st : X11Server) (data : List Nat)
    (st2 : X11Server) (r : Except RequestError (List Nat))
    (h : handle_get_window_attributes st data = some (st2, r)) :
    HandlerOk st st2 r := by
  simp only [handle_get_window_attributes, bind, Option.bind_eq_some, pure,
    Option.some_inj] at h
  obtain ⟨a1, h1, h⟩ := h
  split at h
  all_goals cases h
  all_goals refine ⟨rfl, ?_, fun e he => Or.inl he⟩
  all_goals rintro reply hr
  all_goals cases hr
  all_goals exact Or.inr ⟨rfl, rfl⟩

theorem hseq_destroy_window (st : X11Server) (data : List Nat)
    (st2 : X11Server) (r : Except RequestError (List Nat))
    (h : handle_destroy_window st data = some (st2, r)) : HandlerOk st st2 r := by
  simp only [handle_destroy_window, bind, Option.bind_eq_some, pure,
    Option.some_inj] at h
  obtain ⟨a1, h1, h⟩ := h
  cases h
  refine ⟨rfl, ?_, fun e he => Or.inl he⟩
  rintro reply hr
  cases hr
  exact Or.inl rfl

theorem hseq_map_window (st : X11Server) (data : List Nat)
    (st2 : X11Server) (r : Except RequestError (List Nat))
    (h : handle_map_window st data = some (st2, r)) : HandlerOk st st2 r := by
  simp only [handle_map_window, send_map_notify, bind, Option.bind_eq_some,
    pure, Option.some_inj] at h
  obtain ⟨a1, h1, h⟩ := h
  cases h
  refine ⟨rfl, ?_, fun e he => ?_⟩
  · rintro reply hr
    cases hr
    exact Or.inl rfl
  · rcases List.mem_append.mp he with h1 | h2
    · exact Or.inl h1
    · rcases List.mem_singleton.mp h2 with rfl
      exact Or.inr ⟨rfl, rfl⟩

theorem hseq_unmap_window (st : X11Server) (data : List Nat)
    (st2 : X11Server) (r : Except RequestError (List Nat))
    (h : handle_unmap_window st data = some (st2, r)) : HandlerOk st st2 r := by
  simp only [handle_unmap_window, bind, Option.bind_eq_some, pure,
    Option.some_inj] at h
  obtain ⟨a1, h1, h⟩ := h
  cases h
  refine ⟨rfl, ?_, fun e he => Or.inl he⟩
  rintro reply hr
  cases hr
  exact Or.inl rfl

set_option maxHeartbeats 3200000 in
theorem hseq_configure_window (st : X11Server) (data : List Nat)
    (st2 : X11Server) (r : Except RequestError (List Nat))
    (h : handle_configure_window st data = some (st2, r)) : HandlerOk st st2 r := by
  rw [handle_configure_window] at h
  obtain ⟨a1, h1, h⟩ := Option.bind_eq_some.mp h
  obtain ⟨a2, h2, h⟩ := Option.bind_eq_some.mp h
  split at h
  · simp only [pure, Option.some_inj] at h
    cases h
    refine ⟨rfl, ?_, fun e he => Or.inl he⟩
    rintro reply hr
    cases hr
    exact Or.inl rfl
  · simp only [bind, pure] at h
    all_goals by_cases c1 : a2 &&& 1 ≠ 0
    all_goals first
      | rw [if_pos c1] at h
      | rw [if_neg c1] at h
    all_goals try (rw [Option.bind_eq_some] at h; obtain ⟨_, _, h⟩ := h)
    all_goals try (rw [Option.bind_eq_some] at h; obtain ⟨_, _, h⟩ := h)
    all_goals by_cases c2 : a2 &&& 2 ≠ 0
    all_goals first
      | rw [if_pos c2] at h
      | rw [if_neg c2] at h
    all_goals try (rw [Option.bind_eq_some] at h; obtain ⟨_, _, h⟩ := h)
    all_goals try (rw [Option.bind_eq_some] at h; obtain ⟨_, _, h⟩ := h)
    all_goals by_cases c3 : a2 &&& 4 ≠ 0
    all_goals first
      | rw [if_pos c3] at h
      | rw [if_neg c3] at h
    all_goals try (rw [Option.bind_eq_some] at h; obtain ⟨_, _, h⟩ := h)
    all_goals try (rw [Option.bind_eq_some] at h; obtain ⟨_, _, h⟩ := h)
    all_goals by_cases c4 : a2 &&& 8 ≠ 0
    all_goals first
      | rw [if_pos c4] at h
      | rw [if_neg c4] at h
    all_goals try (rw [Option.bind_eq_some] at h; obtain ⟨_, _, h⟩ := h)
    all_goals try (rw [Option.bind_eq_some] at h; obtain ⟨_, _, h⟩ := h)
    all_goals by_cases c5 : a2 &&& 16 ≠ 0
    all_goals first
      | rw [if_pos c5] at h
      | rw [if_neg c5] at h
    all_goals try (rw [Option.bind_eq_some] at h; obtain ⟨_, _, h⟩ := h)
    all_goals try (rw [Option.bind_eq_some] at h; obtain ⟨_, _, h⟩ := h)
    all_goals cases h
    all_goals refine ⟨rfl, ?_, fun e he => Or.inl he⟩
    all_goals rintro reply hr
    all_goals cases hr
    all_goals exact Or.inl rfl

theorem hseq_get_geometry (st : X11Server) (data : List Nat)
    (st2 : X11Server) (r : Except RequestError (List Nat))
    (h : handle_get_geometry st data = some (st2, r)) : HandlerOk st st2 r := by
  simp only [handle_get_geometry, bind, Option.bind_eq_some, pure,
    Option.some_inj] at h
  obtain ⟨a1, h1, h⟩ := h
  split at h
  all_goals cases h
  all_goals refine ⟨rfl, ?_, fun e he => Or.inl he⟩
  all_goals rintro reply hr
  all_goals cases hr
  all_goals exact Or.inr ⟨rfl, rfl⟩

theorem hseq_query_tree (st : X11Server) (data : List Nat)
    (st2 : X11Server) (r : Except RequestError (List Nat))
    (h : handle_query_tree st data = some (st2, r)) : HandlerOk st st2 r := by
  simp only [handle_query_tree, bind, Option.bind_eq_some, pure,
    Option.some_inj] at h
  obtain ⟨a1, h1, h⟩ := h
  split at h
  all_goals cases h
  all_goals refine ⟨rfl, ?_, fun e he => Or.inl he⟩
  all_goals rintro reply hr
  all_goals cases hr
  all_goals exact Or.inr ⟨rfl, rfl⟩

theorem hseq_intern_atom (st : X11Server) (data : List Nat)
    (st2 : X11Server) (r : Except RequestError (List Nat))
    (h : handle_intern_atom st data = some (st2, r)) : HandlerOk st st2 r := by
  simp only [handle_intern_atom, bind, Option.bind_eq_some, pure,
    Option.some_inj] at h
  obtain ⟨a1, h1, a2, h2, a3, h3, h⟩ := h
  split at h
  all_goals cases h
  · refine ⟨rfl, ?_, fun e he => Or.inl he⟩
    rintro reply hr
    cases hr
    exact Or.inr ⟨rfl, rfl⟩
  · refine ⟨rfl, ?_, fun e he => Or.inl he⟩
    rintro reply hr
    cases hr

theorem hseq_get_atom_name (st : X11Server) (data : List Nat)
    (st2 : X11Server) (r : Except RequestError (List Nat))
    (h : handle_get_atom_name st data = some (st2, r)) : HandlerOk st st2 r := by
  simp only [handle_get_atom_name, bind, Option.bind_eq_some, pure,
    Option.some_inj] at h
  obtain ⟨a1, h1, h⟩ := h
  split at h
  all_goals cases h
  all_goals refine ⟨rfl, ?_, fun e he => Or.inl he⟩
  all_goals rintro reply hr
  all_goals cases hr
  all_goals exact Or.inr ⟨rfl, rfl⟩

theorem hseq_change_property (st : X11Server) (data : List Nat)
    (st2 : X11Server) (r : Except RequestError (List Nat))
    (h : handle_change_property st data = some (st2, r)) : HandlerOk st st2 r := by
  simp only [handle_change_property, pure, Option.some_inj] at h
  cases h
  refine ⟨rfl, ?_, fun e he => Or.inl he⟩
  rintro reply hr
  cases hr
  exact Or.inl rfl

theorem hseq_get_property (st : X11Server) (data : List Nat)
    (st2 : X11Server) (r : Except RequestError (List Nat))
    (h : handle_get_property st data = some (st2, r)) : HandlerOk st st2 r := by
  simp only [handle_get_property, bind, Option.bind_eq_some, pure,
    Option.some_inj] at h
  obtain ⟨a1, h1, a2, h2, h⟩ := h
  cases h
  refine ⟨rfl, ?_, fun e he => Or.inl he⟩
  rintro reply hr
  cases hr
  exact Or.inr ⟨rfl, rfl⟩

theorem hseq_set_input_focus (st : X11Server) (data : List Nat)
    (st2 : X11Server) (r : Except RequestError (List Nat))
    (h : handle_set_input_focus st data = some (st2, r)) : HandlerOk st st2 r := by
  simp only [handle_set_input_focus, bind, Option.bind_eq_some, pure,
    Option.some_inj] at h
  obtain ⟨a1, h1, h⟩ := h
  cases h
  refine ⟨rfl, ?_, fun e he => Or.inl he⟩
  rintro reply hr
  cases hr
  exact Or.inl rfl

theorem hseq_get_input_focus (st : X11Server) (data : List Nat)
    (st2 : X11Server) (r : Except RequestError (List Nat))
    (h : handle_get_input_focus st data = some (st2, r)) : HandlerOk st st2 r := by
  simp only [handle_get_input_focus, pure, Option.some_inj] at h
  cases h
  refine ⟨rfl, ?_, fun e he => Or.inl he⟩
  rintro reply hr
  cases hr
  exact Or.inr ⟨rfl, rfl⟩


theorem hseq_get_selection_owner (st : X11Server) (data : List Nat)
    (st2 : X11Server) (r : Except RequestError (List Nat))
    (h : handle_get_selection_owner st data = some (st2, r)) :
    HandlerOk st st2 r := by
  simp only [handle_get_selection_owner, pure, Option.some_inj] at h
  cases h
  refine ⟨rfl, ?_, fun e he => Or.inl he⟩
  rintro reply hr
  cases hr
  exact Or.inr ⟨rfl, rfl⟩

theorem hseq_query_pointer (st : X11Server) (data : List Nat)
    (st2 : X11Server) (r : Except RequestError (List Nat))
    (h : handle_query_pointer st data = some (st2, r)) : HandlerOk st st2 r := by
  simp only [handle_query_pointer, bind, Option.bind_eq_some, pure,
    Option.some_inj] at h
  obtain ⟨a1, h1, h⟩ := h
  cases h
  refine ⟨rfl, ?_, fun e he => Or.inl he⟩
  rintro reply hr
  cases hr
  exact Or.inr ⟨rfl, rfl⟩

theorem hseq_query_font (st : X11Server) (data : List Nat)
    (st2 : X11Server) (r : Except RequestError (List Nat))
    (h : handle_query_font st data = some (st2, r)) : HandlerOk st st2 r := by
  simp only [handle_query_font, pure, Option.some_inj] at h
  cases h
  refine ⟨rfl, ?_, fun e he => Or.inl he⟩
  rintro reply hr
  cases hr
  exact Or.inr ⟨rfl, rfl⟩

theorem hseq_list_fonts_with_info (st : X11Server) (data : List Nat)
    (st2 : X11Server) (r : Except RequestError (List Nat))
    (h : handle_list_fonts_with_info st data = some (st2, r)) :
    HandlerOk st st2 r := by
  simp only [handle_list_fonts_with_info, pure, Option.some_inj] at h
  cases h
  refine ⟨rfl, ?_, fun e he => Or.inl he⟩
  rintro reply hr
  cases hr
  exact Or.inr ⟨rfl, rfl⟩

theorem hseq_create_pixmap (st : X11Server) (data : List Nat)
    (st2 : X11Server) (r : Except RequestError (List Nat))
    (h : handle_create_pixmap st data = some (st2, r)) : HandlerOk st st2 r := by
  simp only [handle_create_pixmap, bind, Option.bind_eq_some, pure,
    Option.some_inj] at h
  obtain ⟨a1, h1, a2, h2, a3, h3, a4, h4, a5, h5, h⟩ := h
  cases h
  refine ⟨rfl, ?_, fun e he => Or.inl he⟩
  rintro reply hr
  cases hr
  exact Or.inl rfl

theorem hseq_free_pixmap (st : X11Server) (data : List Nat)
    (st2 : X11Server) (r : Except RequestError (List Nat))
    (h : handle_free_pixmap st data = some (st2, r)) : HandlerOk st st2 r := by
  simp only [handle_free_pixmap, bind, Option.bind_eq_some, pure,
    Option.some_inj] at h
  obtain ⟨a1, h1, h⟩ := h
  cases h
  refine ⟨rfl, ?_, fun e he => Or.inl he⟩
  rintro reply hr
  cases hr
  exact Or.inl rfl

theorem hseq_create_gc (st : X11Server) (data : List Nat)
    (st2 : X11Server) (r : Except RequestError (List Nat))
    (h : handle_create_gc st data = some (st2, r)) : HandlerOk st st2 r := by
  simp only [handle_create_gc, bind, Option.bind_eq_some, pure,
    Option.some_inj] at h
  obtain ⟨a1, h1, a2, h2, h⟩ := h
  cases h
  refine ⟨rfl, ?_, fun e he => Or.inl he⟩
  rintro reply hr
  cases hr
  exact Or.inl rfl

set_option maxHeartbeats 1600000 in
theorem hseq_change_gc (st : X11Server) (data : List Nat)
    (st2 : X11Server) (r : Except RequestError (List Nat))
    (h : handle_change_gc st data = some (st2, r)) : HandlerOk st st2 r := by
  rw [handle_change_gc] at h
  obtain ⟨a1, h1, h⟩ := Option.bind_eq_some.mp h
  obtain ⟨a2, h2, h⟩ := Option.bind_eq_some.mp h
  split at h
  · simp only [pure, Option.some_inj] at h
    cases h
    refine ⟨rfl, ?_, fun e he => Or.inl he⟩
    rintro reply hr
    cases hr
    exact Or.inl rfl
  · simp only [bind, pure] at h
    all_goals by_cases c1 : a2 &&& 4 ≠ 0
    all_goals first
      | rw [if_pos c1] at h
      | rw [if_neg c1] at h
    all_goals try (rw [Option.bind_eq_some] at h; obtain ⟨_, _, h⟩ := h)
    all_goals try (rw [Option.bind_eq_some] at h; obtain ⟨_, _, h⟩ := h)
    all_goals by_cases c2 : a2 &&& 8 ≠ 0
    all_goals first
      | rw [if_pos c2] at h
      | rw [if_neg c2] at h
    all_goals try (rw [Option.bind_eq_some] at h; obtain ⟨_, _, h⟩ := h)
    all_goals try (rw [Option.bind_eq_some] at h; obtain ⟨_, _, h⟩ := h)
    all_goals cases h
    all_goals refine ⟨rfl, ?_, fun e he => Or.inl he⟩
    all_goals rintro reply hr
    all_goals cases hr
    all_goals exact Or.inl rfl

theorem hseq_free_gc (st : X11Server) (data : List Nat)
    (st2 : X11Server) (r : Except RequestError (List Nat))
    (h : handle_free_gc st data = some (st2, r)) : HandlerOk st st2 r := by
  simp only [handle_free_gc, bind, Option.bind_eq_some, pure,
    Option.some_inj] at h
  obtain ⟨a1, h1, h⟩ := h
  cases h
  refine ⟨rfl, ?_, fun e he => Or.inl he⟩
  rintro reply hr
  cases hr
  exact Or.inl rfl

theorem hseq_clear_area (st : X11Server) (data : List Nat)
    (st2 : X11Server) (r : Except RequestError (List Nat))
    (h : handle_clear_area st data = some (st2, r)) : HandlerOk st st2 r := by
  simp only [handle_clear_area, bind, Option.bind_eq_some, pure,
    Option.some_inj] at h
  obtain ⟨a1, h1, a2, h2, a3, h3, a4, h4, a5, h5, h⟩ := h
  cases h
  refine ⟨rfl, ?_, fun e he => Or.inl he⟩
  rintro reply hr
  cases hr
  exact Or.inl rfl

theorem hseq_poly_fill_rectangle (st : X11Server) (data : List Nat)
    (st2 : X11Server) (r : Except RequestError (List Nat))
    (h : handle_poly_fill_rectangle st data = some (st2, r)) :
    HandlerOk st st2 r := by
  simp only [handle_poly_fill_rectangle, bind, Option.bind_eq_some, pure,
    Option.some_inj] at h
  obtain ⟨a1, h1, a2, h2, h⟩ := h
  cases h
  refine ⟨rfl, ?_, fun e he => Or.inl he⟩
  rintro reply hr
  cases hr
  exact Or.inl rfl

theorem hseq_put_image (st : X11Server) (data : List Nat)
    (st2 : X11Server) (r : Except RequestError (List Nat))
    (h : handle_put_image st data = some (st2, r)) : HandlerOk st st2 r := by
  simp only [handle_put_image, bind, Option.bind_eq_some, pure,
    Option.some_inj] at h
  obtain ⟨a1, h1, a2, h2, a3, h3, a4, h4, a5, h5, a6, h6, a7, h7, a8, h8,
    a9, h9, a10, h10, h⟩ := h
  cases h
  refine ⟨rfl, ?_, fun e he => Or.inl he⟩
  rintro reply hr
  cases hr
  exact Or.inl rfl

theorem hseq_get_image (st : X11Server) (data : List Nat)
    (st2 : X11Server) (r : Except RequestError (List Nat))
    (h : handle_get_image st data = some (st2, r)) : HandlerOk st st2 r := by
  simp only [handle_get_image, pure, Option.some_inj] at h
  cases h
  refine ⟨rfl, ?_, fun e he => Or.inl he⟩
  rintro reply hr
  cases hr
  exact Or.inr ⟨rfl, rfl⟩

theorem hseq_alloc_color (st : X11Server) (data : List Nat)
    (st2 : X11Server) (r : Except RequestError (List Nat))
    (h : handle_alloc_color st data = some (st2, r)) : HandlerOk st st2 r := by
  simp only [handle_alloc_color, pure, Option.some_inj] at h
  cases h
  refine ⟨rfl, ?_, fun e he => Or.inl he⟩
  rintro reply hr
  cases hr
  exact Or.inr ⟨rfl, rfl⟩

theorem hseq_query_colors (st : X11Server) (data : List Nat)
    (st2 : X11Server) (r : Except RequestError (List Nat))
    (h : handle_query_colors st data = some (st2, r)) : HandlerOk st st2 r := by
  simp only [handle_query_colors, pure, Option.some_inj] at h
  cases h
  refine ⟨rfl, ?_, fun e he => Or.inl he⟩
  rintro reply hr
  cases hr
  exact Or.inr ⟨rfl, rfl⟩

theorem hseq_query_best_size (st : X11Server) (data : List Nat)
    (st2 : X11Server) (r : Except RequestError (List Nat))
    (h : handle_query_best_size st data = some (st2, r)) : HandlerOk st st2 r := by
  simp only [handle_query_best_size, pure, Option.some_inj] at h
  cases h
  refine ⟨rfl, ?_, fun e he => Or.inl he⟩
  rintro reply hr
  cases hr
  exact Or.inr ⟨rfl, rfl⟩

theorem hseq_query_extension (st : X11Server) (data : List Nat)
    (st2 : X11Server) (r : Except RequestError (List Nat))
    (h : handle_query_extension st data = some (st2, r)) : HandlerOk st st2 r := by
  simp only [handle_query_extension, bind, Option.bind_eq_some, pure,
    Option.some_inj] at h
  obtain ⟨a1, h1, a2, h2, h⟩ := h
  cases h
  refine ⟨rfl, ?_, fun e he => Or.inl he⟩
  rintro reply hr
  cases hr
  exact Or.inr ⟨rfl, rfl⟩

theorem hseq_query_keymap (st : X11Server) (data : List Nat)
    (st2 : X11Server) (r : Except RequestError (List Nat))
    (h : handle_query_keymap st data = some (st2, r)) : HandlerOk st st2 r := by
  simp only [handle_query_keymap, pure, Option.some_inj] at h
  cases h
  refine ⟨rfl, ?_, fun e he => Or.inl he⟩
  rintro reply hr
  cases hr
  exact Or.inr ⟨rfl, rfl⟩

theorem hseq_get_keyboard_mapping (st : X11Server) (data : List Nat)
    (st2 : X11Server) (r : Except RequestError (List Nat))
    (h : handle_get_keyboard_mapping st data = some (st2, r)) :
    HandlerOk st st2 r := by
  simp only [handle_get_keyboard_mapping, pure, Option.some_inj] at h
  cases h
  refine ⟨rfl, ?_, fun e he => Or.inl he⟩
  rintro reply hr
  cases hr
  exact Or.inr ⟨rfl, rfl⟩

theorem hseq_get_modifier_mapping (st : X11Server) (data : List Nat)
    (st2 : X11Server) (r : Except RequestError (List Nat))
    (h : handle_get_modifier_mapping st data = some (st2, r)) :
    HandlerOk st st2 r := by
  simp only [handle_get_modifier_mapping, pure, Option.some_inj] at h
  cases h
  refine ⟨rfl, ?_, fun e he => Or.inl he⟩
  rintro reply hr
  cases hr
  exact Or.inr ⟨rfl, rfl⟩

theorem hseq_ge (st : X11Server) (data : List Nat)
    (st2 : X11Server) (r : Except RequestError (List Nat))
    (h : handle_ge st data = some (st2, r)) : HandlerOk st st2 r := by
  simp only [handle_ge, bind, Option.bind_eq_some, pure, Option.some_inj] at h
  obtain ⟨m, hm, h⟩ := h
  split at h
  all_goals cases h
  all_goals refine ⟨rfl, ?_, fun e he => Or.inl he⟩
  all_goals rintro reply hr
  all_goals cases hr
  all_goals first
    | exact Or.inl rfl
    | exact Or.inr ⟨rfl, rfl⟩

theorem hseq_xinput (st : X11Server) (data : List Nat)
    (st2 : X11Server) (r : Except RequestError (List Nat))
    (h : handle_xinput st data = some (st2, r)) : HandlerOk st st2 r := by
  simp only [handle_xinput, bind, Option.bind_eq_some, pure,
    Option.some_inj] at h
  obtain ⟨m, hm, h⟩ := h
  split at h
  all_goals cases h
  all_goals refine ⟨rfl, ?_, fun e he => Or.inl he⟩
  all_goals rintro reply hr
  all_goals cases hr
  all_goals first
    | exact Or.inl rfl
    | exact Or.inr ⟨rfl, rfl⟩

theorem hseq_xkb (st : X11Server) (data : List Nat)
    (st2 : X11Server) (r : Except RequestError (List Nat))
    (h : handle_xkb st data = some (st2, r)) : HandlerOk st st2 r := by
  simp only [handle_xkb, bind, Option.bind_eq_some, pure, Option.some_inj] at h
  obtain ⟨m, hm, h⟩ := h
  split at h
  all_goals cases h
  all_goals refine ⟨rfl, ?_, fun e he => Or.inl he⟩
  all_goals rintro reply hr
  all_goals cases hr
  all_goals first
    | exact Or.inl rfl
    | exact Or.inr ⟨rfl, rfl⟩

theorem hseq_randr (st : X11Server) (data : List Nat)
    (st2 : X11Server) (r : Except RequestError (List Nat))
    (h : handle_randr st data = some (st2, r)) : HandlerOk st st2 r := by
  simp only [handle_randr, bind, Option.bind_eq_some, pure,
    Option.some_inj] at h
  obtain ⟨m, hm, h⟩ := h
  split at h
  all_goals cases h
  all_goals refine ⟨rfl, ?_, fun e he => Or.inl he⟩
  all_goals rintro reply hr
  all_goals cases hr
  all_goals first
    | exact Or.inl rfl
    | (refine Or.inr ⟨?_, ?_⟩ <;>
        simp [randr_query_version, randr_get_screen_resources,
          randr_get_output_info, randr_get_crtc_info, randr_get_output_primary,
          randr_get_providers, defaultNameBytes, le16, le32])


/-- Lift a handler guarantee over the dispatcher's sequence increment. -/
theorem liftOk {st st2 : X11Server} {r : Except RequestError (List Nat)}
    (hk : HandlerOk { st with sequence := (st.sequence + 1) % 65536 } st2 r) :
    st2.sequence = (st.sequence + 1) % 65536 ∧
    (∀ reply, r = .ok reply → seqBytesOk st2.sequence reply) ∧
    (∀ e ∈ st2.events, e ∈ st.events ∨
      (e.get? 2 = some 0 ∧ e.get? 3 = some 0)) := by
  obtain ⟨h1, h2, h3⟩ := hk
  refine ⟨h1, fun reply hr => ?_, fun e he => h3 e he⟩
  rw [h1]
  exact h2 reply hr

/-- Claim C1 fails in the code on its event half: a MapWindow request on a
fresh connected server leaves the sequence at 1, yet the enqueued
MapNotify event carries [0, 0] at offsets 2..4 — send_map_notify never
writes the sequence — while le16 1 = [1, 0]. -/
theorem sequence_claim_counterexample :
    ((process_request testServer ([8, 0, 2, 0] ++ le32 5)).map
      (fun p => (p.1.sequence, p.1.events.map (fun e => (e.get? 2, e.get? 3))))) =
      some (1, [(some 0, some 0)]) ∧ le16 1 ≠ [0, 0] :=
  ⟨rfl, by decide⟩

set_option maxHeartbeats 1600000 in
/-- Claim C1 (amended): processing any complete frame (at least 4 bytes,
not cut short of its own length word) on a connected server increments
the 16-bit sequence counter exactly once, wrapping modulo 2^16; every
non-empty reply carries the new counter value little-endian at offset 2;
but events do not: any event enqueued by the request carries zero bytes
at offsets 2 and 3 instead of the counter. -/
theorem request_sequence_discipline (st : X11Server) (data : List Nat)
    (st2 : X11Server) (r : Except RequestError (List Nat)) (lf : Nat)
    (hstate : st.state = .Connected)
    (hlen : ¬ data.length < 4)
    (hlf : rd16 data 2 = some lf)
    (hcomp : ¬ (lf * 4 > 0 ∧ data.length < lf * 4))
    (h : process_request st data = some (st2, r)) :
    st2.sequence = (st.sequence + 1) % 65536 ∧
    (∀ reply, r = .ok reply → seqBytesOk st2.sequence reply) ∧
    (∀ e ∈ st2.events, e ∈ st.events ∨
      (e.get? 2 = some 0 ∧ e.get? 3 = some 0)) := by
  rw [show process_request st data = handle_request st data from by
    rw [process_request, hstate]] at h
  rw [handle_request, if_neg hlen] at h
  obtain ⟨opcode, hop, h⟩ := Option.bind_eq_some.mp h
  obtain ⟨det, hdet, h⟩ := Option.bind_eq_some.mp h
  obtain ⟨lf2, hlf2, h⟩ := Option.bind_eq_some.mp h
  rw [hlf] at hlf2
  cases hlf2
  rw [if_neg hcomp] at h
  split at h
  · exact liftOk (hseq_create_window _ _ _ _ h)
  · exact liftOk (hseq_change_window_attributes _ _ _ _ h)
  · exact liftOk (hseq_get_window_attributes _ _ _ _ h)
  · exact liftOk (hseq_destroy_window _ _ _ _ h)
  · exact liftOk (hseq_map_window _ _ _ _ h)
  · exact liftOk (hseq_unmap_window _ _ _ _ h)
  · exact liftOk (hseq_configure_window _ _ _ _ h)
  · exact liftOk (hseq_get_geometry _ _ _ _ h)
  · exact liftOk (hseq_query_tree _ _ _ _ h)
  · exact liftOk (hseq_intern_atom _ _ _ _ h)
  · exact liftOk (hseq_get_atom_name _ _ _ _ h)
  · exact liftOk (hseq_change_property _ _ _ _ h)
  · exact liftOk (hseq_get_property _ _ _ _ h)
  · exact liftOk (hseq_get_selection_owner _ _ _ _ h)
  · exact liftOk (hseq_query_pointer _ _ _ _ h)
  · exact liftOk (hseq_set_input_focus _ _ _ _ h)
  · exact liftOk (hseq_get_input_focus _ _ _ _ h)
  · simp only [pure, Option.some_inj] at h
    cases h
    exact ⟨rfl, fun reply hr => by cases hr; exact Or.inl rfl,
      fun e he => Or.inl he⟩
  · simp only [pure, Option.some_inj] at h
    cases h
    exact ⟨rfl, fun reply hr => by cases hr; exact Or.inl rfl,
      fun e he => Or.inl he⟩
  · exact liftOk (hseq_query_font _ _ _ _ h)
  · exact liftOk (hseq_list_fonts_with_info _ _ _ _ h)
  · exact liftOk (hseq_create_pixmap _ _ _ _ h)
  · exact liftOk (hseq_free_pixmap _ _ _ _ h)
  · exact liftOk (hseq_create_gc _ _ _ _ h)
  · exact liftOk (hseq_change_gc _ _ _ _ h)
  · exact liftOk (hseq_free_gc _ _ _ _ h)
  · exact liftOk (hseq_clear_area _ _ _ _ h)
  · simp only [pure, Option.some_inj] at h
    cases h
    exact ⟨rfl, fun reply hr => by cases hr; exact Or.inl rfl,
      fun e he => Or.inl he⟩
  · exact liftOk (hseq_poly_fill_rectangle _ _ _ _ h)
  · exact liftOk (hseq_put_image _ _ _ _ h)
  · exact liftOk (hseq_get_image _ _ _ _ h)
  · simp only [pure, Option.some_inj] at h
    cases h
    exact ⟨rfl, fun reply hr => by cases hr; exact Or.inl rfl,
      fun e he => Or.inl he⟩
  · exact liftOk (hseq_alloc_color _ _ _ _ h)
  · exact liftOk (hseq_query_colors _ _ _ _ h)
  · exact liftOk (hseq_query_best_size _ _ _ _ h)
  · exact liftOk (hseq_query_extension _ _ _ _ h)
  · exact liftOk (hseq_query_keymap _ _ _ _ h)
  · exact liftOk (hseq_get_keyboard_mapping _ _ _ _ h)
  · exact liftOk (hseq_get_modifier_mapping _ _ _ _ h)
  · exact liftOk (hseq_ge _ _ _ _ h)
  · exact liftOk (hseq_xinput _ _ _ _ h)
  · exact liftOk (hseq_xkb _ _ _ _ h)
  · exact liftOk (hseq_randr _ _ _ _ h)
  · simp only [pure, Option.some_inj] at h
    cases h
    exact ⟨rfl, fun reply hr => by cases hr; exact Or.inl rfl,
      fun e he => Or.inl he⟩

theorem request_sequence_discipline_witness :
    testServer.state = .Connected ∧
    ¬ ([43, 0, 1, 0] : List Nat).length < 4 ∧
    rd16 [43, 0, 1, 0] 2 = some 1 ∧
    ¬ ((1 : Nat) * 4 > 0 ∧ ([43, 0, 1, 0] : List Nat).length < 1 * 4) ∧
    process_request testServer [43, 0, 1, 0] =
      some ({ testServer with sequence := 1 },
        .ok ([1, 0] ++ le16 1 ++ le32 0 ++ le32 1 ++ zeros 20)) ∧
    (({ testServer with sequence := 1 } : X11Server).sequence =
        (testServer.sequence + 1) % 65536 ∧
      (∀ reply, (Except.ok ([1, 0] ++ le16 1 ++ le32 0 ++ le32 1 ++ zeros 20) :
          Except RequestError (List Nat)) = .ok reply →
        seqBytesOk ({ testServer with sequence := 1 } : X11Server).sequence reply) ∧
      (∀ e ∈ ({ testServer with sequence := 1 } : X11Server).events,
        e ∈ testServer.events ∨ (e.get? 2 = some 0 ∧ e.get? 3 = some 0))) :=
  ⟨rfl, by decide, rfl, by decide, rfl,
    request_sequence_discipline testServer [43, 0, 1, 0]
      { testServer with sequence := 1 }
      (.ok ([1, 0] ++ le16 1 ++ le32 0 ++ le32 1 ++ zeros 20)) 1
      rfl (by decide) rfl (by decide) rfl⟩

end X11q
